import Mathlib

/-!
Verification of the odata-query core (lexer, parser, AST, round-trip printer,
duration handling and the SQL code generators) against its specification.

Python sources embedded here:
- `src/odata_query/ast.py` (AST node model, `DURATION_PATTERN`, `Duration.unpack`)
- `src/odata_query/exceptions.py` (error taxonomy)
- `src/odata_query/grammar.py` (`ODataLexer`, `ODataParser`, `ODATA_FUNCTIONS`)
- `src/odata_query/roundtrip.py` (`AstToODataVisitor`)
- `src/odata_query/typing.py` (`infer_type`)
- `src/odata_query/sql/base.py`, `sql/sqlite.py`, `sql/athena.py` (SQL visitors)

Modelling conventions:
- Python strings are Lean `String`s, processed as `List Char` where scanning
  is needed.
- Python exceptions become an `Except PyError` result; each `raise` site in
  the sources maps to a `throw` of the matching constructor.  A Python-level
  `NameError` / `AttributeError` / `ValueError` (from bugs or dynamic typing)
  is modelled by its own constructor, since those are observably different
  from the library's typed exceptions.
- The SLY lexer tries token rules in class-definition order and falls back to
  single-character literals; an unmatched position invokes `ODataLexer.error`.
  The regular expressions of the token rules are hand-translated into
  deterministic matchers; for each of these specific patterns the greedy
  deterministic reading agrees with Python's backtracking `re` semantics
  (each optional group is guarded by a distinct required letter, so a failed
  greedy attempt cannot be rescued by backtracking), except for the quoted
  STRING rule where the backtracking is modelled explicitly.
-/

namespace ODataQuery

/-! ## AST node model (src/odata_query/ast.py) -/

/-- `_BinOpToken` subclasses: `Add, Sub, Mult, Div, Mod`. -/
inductive BinOpTok
| add
| sub
| mult
| div
| mod
deriving DecidableEq, Repr

/-- `_Comparator` subclasses: `Eq, NotEq, Lt, LtE, Gt, GtE, In`. -/
inductive CmpTok
| eq
| notEq
| lt
| ltE
| gt
| gtE
| inOp
deriving DecidableEq, Repr

/-- `_BoolOpToken` subclasses: `And, Or`. -/
inductive BoolOpTok
| and
| or
deriving DecidableEq, Repr

/-- `_UnaryOpToken` subclasses: `Not, USub`. -/
inductive UnaryTok
| not
| uSub
deriving DecidableEq, Repr

/-- `_CollectionOperator` subclasses: `Any, All`. -/
inductive CollOp
| any
| all
deriving DecidableEq, Repr

/-- The `_Node` dataclass hierarchy of `ast.py`.  `Identifier`, `Call` and
`Lambda` store the identifier name together with its namespace tuple
(`Identifier.namespace`, default empty).  `Attribute.attr` is a `str` in the
dataclass; the parser's transient mis-typed `Attribute` (whose `attr` holds a
node) is modelled separately at its single use site. -/
inductive Node
| identifier (name : String) (nspace : List String)
| attribute (owner : Node) (attr : String)
| null
| integer (val : String)
| float (val : String)
| boolean (val : String)
| string (val : String)
| geography (val : String)
| date (val : String)
| time (val : String)
| dateTime (val : String)
| duration (val : String)
| guid (val : String)
| list (val : List Node)
| binOp (op : BinOpTok) (left : Node) (right : Node)
| compare (comparator : CmpTok) (left : Node) (right : Node)
| boolOp (op : BoolOpTok) (left : Node) (right : Node)
| unaryOp (op : UnaryTok) (operand : Node)
| namedParam (name : String) (nameNamespace : List String) (param : Node)
| call (func : String) (funcNamespace : List String) (args : List Node)
| lambda' (identifier : String) (idNamespace : List String) (expression : Node)
| collectionLambda (owner : Node) (operator : CollOp) (lambda' : Option Node)
deriving Repr

/-! ## Duration pattern (ast.py `DURATION_PATTERN` and `Duration.unpack`)

`DURATION_PATTERN = ([+-])?P(\d+Y)?(\d+M)?(\d+D)?(?:T(\d+H)?(\d+M)?(\d+(?:\.\d+)?S)?)?`
used with `fullmatch`.  `unpack` returns the seven groups with the trailing
unit letter stripped from each numeric group. -/

/-- Greedy match of `\d+X` for a fixed unit letter `X`; returns the digits and
the rest.  Greedy agrees with `re` backtracking here: shortening `\d+` leaves
a digit where the unit letter is required. -/
def matchNumUnit (unit : Char) (cs : List Char) : Option (List Char × List Char) :=
  let digits := cs.takeWhile (·.isDigit)
  let rest := cs.dropWhile (·.isDigit)
  if digits.isEmpty then none
  else match rest with
    | c :: rest' => if c = unit then some (digits, rest') else none
    | [] => none

/-- Greedy match of `\d+(?:\.\d+)?S` (the seconds group). -/
def matchSecondsGroup (cs : List Char) : Option (List Char × List Char) :=
  let digits := cs.takeWhile (·.isDigit)
  let rest := cs.dropWhile (·.isDigit)
  if digits.isEmpty then none
  else match rest with
    | '.' :: rest' =>
      let frac := rest'.takeWhile (·.isDigit)
      let rest'' := rest'.dropWhile (·.isDigit)
      if frac.isEmpty then
        -- `(?:\.\d+)?` cannot match, fall back to no fraction: need `S` at '.'
        none
      else match rest'' with
        | 'S' :: r => some (digits ++ '.' :: frac, r)
        | _ => none
    | 'S' :: r => some (digits, r)
    | _ => none

/-- The seven captured groups of `DURATION_PATTERN` (unit letters stripped,
as `Duration.unpack` returns them): sign, years, months, days, hours,
minutes, seconds. -/
structure DurationGroups where
  sign : Option String
  years : Option String
  months : Option String
  days : Option String
  hours : Option String
  minutes : Option String
  seconds : Option String
deriving DecidableEq, Repr

/-- An optional `\d+X` group of `DURATION_PATTERN`: the captured digits (unit
letter stripped, as `Duration.unpack` returns them) and the rest; the input is
unchanged when the group does not participate. -/
def stepNum (u : Char) (cs : List Char) : Option String × List Char :=
  match matchNumUnit u cs with
  | some (d, r) => (some (String.mk d), r)
  | none => (none, cs)

/-- The optional seconds group `(\d+(?:\.\d+)?S)?` of `DURATION_PATTERN`. -/
def stepSec (cs : List Char) : Option String × List Char :=
  match matchSecondsGroup cs with
  | some (d, r) => (some (String.mk d), r)
  | none => (none, cs)

/-- The groups after `T`: `(\d+H)?(\d+M)?(\d+(?:\.\d+)?S)?`, anchored at the
end of the value (fullmatch). -/
def unpackTime (cs : List Char) :
    Option (Option String × Option String × Option String) :=
  let (hours, cs) := stepNum 'H' cs
  let (minutes, cs) := stepNum 'M' cs
  let (seconds, cs) := stepSec cs
  match cs with
  | [] => some (hours, minutes, seconds)
  | _ => none

/-- The part after `P`:
`(\d+Y)?(\d+M)?(\d+D)?(?:T(\d+H)?(\d+M)?(\d+(?:\.\d+)?S)?)?`, anchored at the
end of the value (fullmatch). -/
def unpackBody (sign : Option String) (cs : List Char) : Option DurationGroups :=
  let (years, cs) := stepNum 'Y' cs
  let (months, cs) := stepNum 'M' cs
  let (days, cs) := stepNum 'D' cs
  match cs with
  | 'T' :: cs =>
    match unpackTime cs with
    | some (h, m, s) => some ⟨sign, years, months, days, h, m, s⟩
    | none => none
  | [] => some ⟨sign, years, months, days, none, none, none⟩
  | _ => none

/-- `DURATION_PATTERN.fullmatch` followed by the unit stripping of
`Duration.unpack`; `none` when the value does not match (Python raises
`ValueError` there).  The leading `([+-])?P` is inlined here. -/
def durationUnpack (val : String) : Option DurationGroups :=
  match val.data with
  | '+' :: 'P' :: cs => unpackBody (some "+") cs
  | '-' :: 'P' :: cs => unpackBody (some "-") cs
  | 'P' :: cs => unpackBody none cs
  | _ => none

/-- `Duration.unpack` as the ordered list of its returned 7-tuple
`(sign, years, months, days, hours, minutes, seconds)`; `none` when the
pattern does not match (where Python raises `ValueError`). -/
def durationUnpackList (val : String) : Option (List (Option String)) :=
  (durationUnpack val).map fun g =>
    [g.sign, g.years, g.months, g.days, g.hours, g.minutes, g.seconds]

/-- Canonical shape of a `\d+X` component: nonempty digits followed by the
unit letter. -/
def NumUnitCanon (u : Char) (l : List Char) : Prop :=
  ∃ ds, ds ≠ [] ∧ ds.all Char.isDigit = true ∧ l = ds ++ [u]

/-- Canonical shape of a seconds component `\d+(?:\.\d+)?S`. -/
def SecCanon (l : List Char) : Prop :=
  (∃ ds, ds ≠ [] ∧ ds.all Char.isDigit = true ∧ l = ds ++ ['S'])
  ∨ (∃ ds fs, ds ≠ [] ∧ fs ≠ [] ∧ ds.all Char.isDigit = true ∧ fs.all Char.isDigit = true
      ∧ l = ds ++ '.' :: (fs ++ ['S']))

/-- Canonical shape of a time component
`T(\d+H)?(\d+M)?(\d+(?:\.\d+)?S)?`. -/
def TimeCanon (l : List Char) : Prop :=
  ∃ hrs mins secs,
    (hrs = [] ∨ NumUnitCanon 'H' hrs)
    ∧ (mins = [] ∨ NumUnitCanon 'M' mins)
    ∧ (secs = [] ∨ SecCanon secs)
    ∧ l = 'T' :: (hrs ++ (mins ++ secs))

/-- A list that is empty or starts with a (possibly empty) digit block
followed by a non-digit from `cset`; no `\d+U` group for a unit outside
`cset` can match a prefix of such a list. -/
def HeadBlock (cset : List Char) (tail : List Char) : Prop :=
  tail = [] ∨ ∃ ds c r, ds.all Char.isDigit = true ∧ c.isDigit = false ∧ c ∈ cset
    ∧ tail = ds ++ c :: r

/-! ## Tokens (grammar.py `ODataLexer`)

Token kinds carry the value the lexer rule stores in `t.value` (an AST node
for literal kinds; the raw/cooked lexeme is kept here).  The five
single-character `literals` get their own kinds. -/

inductive Token
| odataIdentifier (name : String)
| null
| string (val : String)
| guid (val : String)
| dateTime (val : String)
| date (val : String)
| time (val : String)
| duration (val : String)
| decimal (val : String)
| integer (val : String)
| boolean (val : String)
| add
| sub
| mul
| div
| mod
| uminus
| and
| or
| not
| eq
| ne
| lt
| le
| gt
| ge
| inKw
| anyKw
| allKw
| ws
| lparen
| rparen
| comma
| slash
| colon
deriving DecidableEq, Repr

/-! ## Errors (exceptions.py plus Python-builtin failures)

Each constructor corresponds to a `raise` site reachable from the embedded
code.  `nameError` models the `NameError` raised by `ODataLexer.error`
(`raise exceptions.TokenizingException(text)` where the name `text` is
unbound), `attributeError` the `AttributeError` from `owner.name` when
`owner` is an `Attribute`, `valueError` Python `ValueError`s,
`indexError`/`typeError` out-of-range/`*args` mismatches in the SQL
function handlers, and `fuelExhausted` is an artefact of the fuelled
recursion (never reached for the inputs considered). -/
inductive PyError
| tokenizingException (token : String)
| nameError (name : String)
| parsingException (token : Option Token) (eof : Bool)
| unknownFunctionException (functionName : String)
| argumentCountException (functionName : String) (expMin expMax given : Nat)
| unsupportedFunctionException (functionName : String)
| argumentTypeException (functionName : String)
| valueError (msg : String)
| attributeError (attr : String)
| notImplementedError
| indexError
| typeError
| fuelExhausted
deriving DecidableEq, Repr

/-! ## Lexer (grammar.py `ODataLexer`)

The SLY master regex tries the token rules in class-definition order:
DURATION, STRING, GUID, DATETIME, DATE, TIME, DECIMAL, INTEGER, BOOLEAN,
NULL, ADD, SUB, MUL, DIV, MOD, UMINUS, AND, OR, NOT, EQ, NE, LT, LE, GT, GE,
IN, ANY, ALL, ODATA_IDENTIFIER, WS; a position no rule matches is a literal
`( ) , / :` or invokes `ODataLexer.error`. -/

/-- Python `\s` (ASCII range, which is all the grammar uses). -/
def pyIsSpace (c : Char) : Bool :=
  c = ' ' || c = '\t' || c = '\n' || c = '\x0d' || c = '\x0b' || c = '\x0c'

/-- Python `\w` (ASCII range). -/
def pyIsWord (c : Char) : Bool :=
  c.isAlpha || c.isDigit || c = '_'

/-- Case-insensitive match of a fixed (lowercase) keyword. -/
def matchCI : List Char → List Char → Option (List Char)
| [], cs => some cs
| _, [] => none
| k :: ks, c :: cs => if c.toLower = k then matchCI ks cs else none

/-- Case-sensitive match of a fixed literal (the `true|false` and `null`
rules have no `(?i)` flag). -/
def matchExact : List Char → List Char → Option (List Char)
| [], cs => some cs
| _, [] => none
| k :: ks, c :: cs => if c = k then matchExact ks cs else none

/-- `\s+` (required whitespace). -/
def matchRWS (cs : List Char) : Option (List Char) :=
  if (cs.takeWhile pyIsSpace).isEmpty then none
  else some (cs.dropWhile pyIsSpace)

/-- `(?i)\s+kw\s+` — the whitespace-delimited keyword operators. -/
def matchWsKeyword (kw : List Char) (cs : List Char) : Option (List Char) := do
  let cs ← matchRWS cs
  let cs ← matchCI kw cs
  matchRWS cs

/-- `(?i)not\s+` (leading whitespace not required). -/
def matchNotKeyword (cs : List Char) : Option (List Char) := do
  let cs ← matchCI ['n', 'o', 't'] cs
  matchRWS cs

/-- `(?i)[_a-z]\w{0,127}` — identifier: leading letter/underscore then up to
127 further word characters (greedy). -/
def matchIdentifier : List Char → Option (String × List Char)
| [] => none
| c :: cs =>
  if c.isAlpha || c = '_' then
    let body := (cs.takeWhile pyIsWord).take 127
    some (String.mk (c :: body), cs.drop body.length)
  else none

/-- Body of `'(?:[^']|'')*'` after the opening quote, with the backtracking
of the greedy star made explicit: a quote pair is consumed as an escape when
the remainder still closes, otherwise its first quote closes the string.
Returns the cooked value (`''` collapsed to `'`, as the STRING rule does)
and the rest after the closing quote. -/
def matchStringBody : List Char → Option (List Char × List Char)
| [] => none
| '\'' :: rest =>
  match rest with
  | '\'' :: rest2 =>
    match matchStringBody rest2 with
    | some (b, r) => some ('\'' :: b, r)
    | none => some ([], rest)
  | _ => some ([], rest)
| c :: rest =>
  match matchStringBody rest with
  | some (b, r) => some (c :: b, r)
  | none => none

/-- The STRING rule `'(?:[^']|'')*'`; value as stored by the rule
(quotes stripped, `''` replaced by `'`). -/
def matchString : List Char → Option (String × List Char)
| '\'' :: rest => (matchStringBody rest).map fun (b, r) => (String.mk b, r)
| _ => none

/-- One fixed-length run of hex digits (`(?i)[\da-f]{n}`). -/
def matchHexRun : Nat → List Char → Option (List Char × List Char)
| 0, cs => some ([], cs)
| n + 1, c :: cs =>
  if c.isDigit || ('a' ≤ c.toLower && c.toLower ≤ 'f') then
    (matchHexRun n cs).map fun (h, r) => (c :: h, r)
  else none
| _ + 1, [] => none

/-- GUID rule `(?i)[\da-f]{8}-[\da-f]{4}-[\da-f]{4}-[\da-f]{4}-[\da-f]{12}`;
value is the raw matched text. -/
def matchGuid (cs : List Char) : Option (String × List Char) := do
  let (h1, cs) ← matchHexRun 8 cs
  let cs ← match cs with | '-' :: r => some r | _ => none
  let (h2, cs) ← matchHexRun 4 cs
  let cs ← match cs with | '-' :: r => some r | _ => none
  let (h3, cs) ← matchHexRun 4 cs
  let cs ← match cs with | '-' :: r => some r | _ => none
  let (h4, cs) ← matchHexRun 4 cs
  let cs ← match cs with | '-' :: r => some r | _ => none
  let (h5, cs) ← matchHexRun 12 cs
  some (String.mk (h1 ++ '-' :: h2 ++ '-' :: h3 ++ '-' :: h4 ++ '-' :: h5), cs)

/-- `_DATE = [1-9]\d{3}-(?:0\d|1[0-2])-(?:[0-2]\d|3[01])`. -/
def matchDate : List Char → Option (List Char × List Char)
| y1 :: y2 :: y3 :: y4 :: '-' :: m1 :: m2 :: '-' :: d1 :: d2 :: rest =>
  if ('1' ≤ y1 && y1 ≤ '9') && y2.isDigit && y3.isDigit && y4.isDigit
      && ((m1 = '0' && m2.isDigit) || (m1 = '1' && '0' ≤ m2 && m2 ≤ '2'))
      && (('0' ≤ d1 && d1 ≤ '2') && d2.isDigit || (d1 = '3' && ('0' ≤ d2 && d2 ≤ '1'))) then
    some ([y1, y2, y3, y4, '-', m1, m2, '-', d1, d2], rest)
  else none
| _ => none

/-- `(?:[01]\d|2[0-3]):[0-5]\d` — the hour:minute core of `_TIME`. -/
def matchHHMM : List Char → Option (List Char × List Char)
| h1 :: h2 :: ':' :: m1 :: m2 :: rest =>
  if (((h1 = '0' || h1 = '1') && h2.isDigit) || (h1 = '2' && '0' ≤ h2 && h2 ≤ '3'))
      && ('0' ≤ m1 && m1 ≤ '5') && m2.isDigit then
    some ([h1, h2, ':', m1, m2], rest)
  else none
| _ => none

/-- The (as-written) seconds group of `_TIME`: `(:?:[0-5]\d(?:\.\d{1,12})?)`,
i.e. one or two colons, two second digits, and an optional fraction of at
most 12 digits. -/
def matchSecondsPart (cs : List Char) : Option (List Char × List Char) :=
  let core : Option (List Char × List Char) :=
    match cs with
    | ':' :: ':' :: s1 :: s2 :: rest =>
      if ('0' ≤ s1 && s1 ≤ '5') && s2.isDigit then some ([':', ':', s1, s2], rest)
      else none
    | _ => none
  let core := match core with
    | some x => some x
    | none =>
      match cs with
      | ':' :: s1 :: s2 :: rest =>
        if ('0' ≤ s1 && s1 ≤ '5') && s2.isDigit then some ([':', s1, s2], rest)
        else none
      | _ => none
  match core with
  | none => none
  | some (sec, rest) =>
    match rest with
    | '.' :: rest' =>
      let frac := (rest'.takeWhile (·.isDigit)).take 12
      if frac.isEmpty then some (sec, rest)
      else some (sec ++ '.' :: frac, rest'.drop frac.length)
    | _ => some (sec, rest)

/-- The TIME rule: `_TIME` exactly (seconds group required). -/
def matchTime (cs : List Char) : Option (List Char × List Char) := do
  let (hm, cs) ← matchHHMM cs
  let (sec, cs) ← matchSecondsPart cs
  some (hm ++ sec, cs)

/-- Timezone suffix of the DATETIME rule: `(Z|[+-](?:[01]\d|2[0-3]):[0-5]\d)`
(case-sensitive). -/
def matchTz : List Char → Option (List Char × List Char)
| 'Z' :: rest => some (['Z'], rest)
| c :: rest =>
  if c = '+' || c = '-' then
    match matchHHMM rest with
    | some (hm, r) => some (c :: hm, r)
    | none => none
  else none
| [] => none

/-- The DATETIME rule: `_DATE "T" _TIME "?" (tz)?` — the trailing `?` makes
the seconds group of `_TIME` optional here. -/
def matchDateTime (cs : List Char) : Option (String × List Char) := do
  let (d, cs) ← matchDate cs
  let cs ← match cs with | 'T' :: r => some r | _ => none
  let (hm, cs) ← matchHHMM cs
  let (sec, cs) := match matchSecondsPart cs with
    | some (s, r) => (s, r)
    | none => (([] : List Char), cs)
  let (tz, cs) := match matchTz cs with
    | some (t, r) => (t, r)
    | none => (([] : List Char), cs)
  some (String.mk (d ++ 'T' :: hm ++ sec ++ tz), cs)

/-- `[+-]?\d+` (`_INTEGER`); value is the raw matched text. -/
def matchInteger (cs : List Char) : Option (String × List Char) :=
  let (sign, cs') := match cs with
    | '+' :: r => (['+'], r)
    | '-' :: r => (['-'], r)
    | _ => (([] : List Char), cs)
  let digits := cs'.takeWhile (·.isDigit)
  if digits.isEmpty then none
  else some (String.mk (sign ++ digits), cs'.dropWhile (·.isDigit))

/-- Exponent part `e[-+]?\d+` of the DECIMAL rule (lowercase `e` only). -/
def matchExponent : List Char → Option (List Char × List Char)
| 'e' :: rest =>
  let (sign, rest') := match rest with
    | '-' :: r => (['-'], r)
    | '+' :: r => (['+'], r)
    | _ => (([] : List Char), rest)
  let digits := rest'.takeWhile (·.isDigit)
  if digits.isEmpty then none
  else some ('e' :: sign ++ digits, rest'.dropWhile (·.isDigit))
| _ => none

/-- DECIMAL rule `_INTEGER((?:(?:\.\d+)(?:e[-+]?\d+))|(?:\.\d+)|(?:e[-+]?\d+))`:
an integer part followed by fraction+exponent, fraction alone, or exponent
alone (tried in that order, as `re` alternation does). -/
def matchDecimal (cs : List Char) : Option (String × List Char) := do
  let (intPart, cs) ← matchInteger cs
  match cs with
  | '.' :: rest =>
    let frac := rest.takeWhile (·.isDigit)
    if frac.isEmpty then
      -- no fraction digits: only a bare exponent can still match
      match matchExponent cs with
      | some (e, r) => some (intPart ++ String.mk e, r)
      | none => none
    else
      let rest' := rest.dropWhile (·.isDigit)
      match matchExponent rest' with
      | some (e, r) => some (intPart ++ String.mk ('.' :: frac ++ e), r)
      | none => some (intPart ++ String.mk ('.' :: frac), rest')
  | _ =>
    match matchExponent cs with
    | some (e, r) => some (intPart ++ String.mk e, r)
    | none => none

/-- `(?i)\d+U` for a unit letter `U` of the DURATION rule (case-insensitive
unit, digits kept raw). -/
def matchNumUnitCI (unit : Char) (cs : List Char) : Option (List Char × List Char) :=
  let digits := cs.takeWhile (·.isDigit)
  let rest := cs.dropWhile (·.isDigit)
  if digits.isEmpty then none
  else match rest with
    | c :: rest' => if c.toUpper = unit then some (digits ++ [c], rest') else none
    | [] => none

/-- `(?i)\d+(?:\.\d+)?S` of the DURATION rule. -/
def matchSecondsUnitCI (cs : List Char) : Option (List Char × List Char) :=
  let digits := cs.takeWhile (·.isDigit)
  let rest := cs.dropWhile (·.isDigit)
  if digits.isEmpty then none
  else match rest with
    | '.' :: rest' =>
      let frac := rest'.takeWhile (·.isDigit)
      let rest'' := rest'.dropWhile (·.isDigit)
      if frac.isEmpty then none
      else match rest'' with
        | c :: r => if c.toUpper = 'S' then some (digits ++ '.' :: frac ++ [c], r) else none
        | [] => none
    | c :: rest' => if c.toUpper = 'S' then some (digits ++ [c], rest') else none
    | [] => none

/-- An optional `(?:\d+U)?` group of the DURATION rule: raw lexeme kept,
input unchanged when the group does not participate. -/
def stepCI (u : Char) (cs : List Char) : List Char × List Char :=
  match matchNumUnitCI u cs with
  | some (d, r) => (d, r)
  | none => ([], cs)

/-- The optional `(?:\d+(?:\.\d+)?S)?` group of the DURATION rule. -/
def stepSecCI (cs : List Char) : List Char × List Char :=
  match matchSecondsUnitCI cs with
  | some (d, r) => (d, r)
  | none => ([], cs)

/-- The optional `(?:T(?:\d+H)?(?:\d+M)?(?:\d+(?:\.\d+)?S)?)?` part of the
DURATION rule (case-insensitive); returns the matched lexeme and the rest. -/
def matchDurationTime (cs : List Char) : List Char × List Char :=
  match cs with
  | c :: r =>
    if c.toUpper = 'T' then
      let (hours, r1) := stepCI 'H' r
      let (minutes, r2) := stepCI 'M' r1
      let (seconds, r3) := stepSecCI r2
      (c :: hours ++ minutes ++ seconds, r3)
    else ([], cs)
  | [] => ([], cs)

/-- The `[+-]?P(?:\d+D)?(?:T...)?` part between the quotes of the DURATION
rule; returns the matched lexeme and the rest. -/
def matchDurationBody (cs : List Char) : Option (List Char × List Char) := do
  let (sign, cs) := match cs with
    | '+' :: r => (['+'], r)
    | '-' :: r => (['-'], r)
    | _ => (([] : List Char), cs)
  let (p, cs) ← match cs with
    | c :: r => if c.toUpper = 'P' then some ([c], r) else none
    | [] => none
  let (days, cs) := stepCI 'D' cs
  let (timePart, cs) := matchDurationTime cs
  some (sign ++ p ++ days ++ timePart, cs)

/-- DURATION rule
`(?i)duration'[+-]?P(?:\d+D)?(?:T(?:\d+H)?(?:\d+M)?(?:\d+(?:\.\d+)?S)?)?'`;
returns the stored value: the text between the quotes, uppercased
(`t.value.upper()` then prefix/quote stripping). -/
def matchDuration (cs : List Char) : Option (String × List Char) := do
  let cs ← matchCI "duration".data cs
  let cs ← match cs with | '\'' :: r => some r | _ => none
  let (body, cs) ← matchDurationBody cs
  let cs ← match cs with | '\'' :: r => some r | _ => none
  some (String.mk (body.map Char.toUpper), cs)

/-- One step of the SLY master regex at the current position: the first rule
(in definition order) that matches wins; falls back to the literal characters
and otherwise invokes the error handler, which raises `NameError` (its
`raise exceptions.TokenizingException(text)` refers to an unbound name). -/
def nextToken (cs : List Char) : Except PyError (Token × List Char) :=
  match matchDuration cs with
  | some (v, r) => .ok (.duration v, r)
  | none =>
  match matchString cs with
  | some (v, r) => .ok (.string v, r)
  | none =>
  match matchGuid cs with
  | some (v, r) => .ok (.guid v, r)
  | none =>
  match matchDateTime cs with
  | some (v, r) => .ok (.dateTime v, r)
  | none =>
  match matchDate cs with
  | some (v, r) => .ok (.date (String.mk v), r)
  | none =>
  match matchTime cs with
  | some (v, r) => .ok (.time (String.mk v), r)
  | none =>
  match matchDecimal cs with
  | some (v, r) => .ok (.decimal v, r)
  | none =>
  match matchInteger cs with
  | some (v, r) => .ok (.integer v, r)
  | none =>
  match matchExact "true".data cs with
  | some r => .ok (.boolean "true", r)
  | none =>
  match matchExact "false".data cs with
  | some r => .ok (.boolean "false", r)
  | none =>
  match matchExact "null".data cs with
  | some r => .ok (.null, r)
  | none =>
  match matchWsKeyword "add".data cs with
  | some r => .ok (.add, r)
  | none =>
  match matchWsKeyword "sub".data cs with
  | some r => .ok (.sub, r)
  | none =>
  match matchWsKeyword "mul".data cs with
  | some r => .ok (.mul, r)
  | none =>
  match matchWsKeyword "div".data cs with
  | some r => .ok (.div, r)
  | none =>
  match matchWsKeyword "mod".data cs with
  | some r => .ok (.mod, r)
  | none =>
  match cs with
  | '-' :: r => .ok (.uminus, r)
  | _ =>
  match matchWsKeyword "and".data cs with
  | some r => .ok (.and, r)
  | none =>
  match matchWsKeyword "or".data cs with
  | some r => .ok (.or, r)
  | none =>
  match matchNotKeyword cs with
  | some r => .ok (.not, r)
  | none =>
  match matchWsKeyword "eq".data cs with
  | some r => .ok (.eq, r)
  | none =>
  match matchWsKeyword "ne".data cs with
  | some r => .ok (.ne, r)
  | none =>
  match matchWsKeyword "lt".data cs with
  | some r => .ok (.lt, r)
  | none =>
  match matchWsKeyword "le".data cs with
  | some r => .ok (.le, r)
  | none =>
  match matchWsKeyword "gt".data cs with
  | some r => .ok (.gt, r)
  | none =>
  match matchWsKeyword "ge".data cs with
  | some r => .ok (.ge, r)
  | none =>
  match matchWsKeyword "in".data cs with
  | some r => .ok (.inKw, r)
  | none =>
  match matchCI "any".data cs with
  | some r => .ok (.anyKw, r)
  | none =>
  match matchCI "all".data cs with
  | some r => .ok (.allKw, r)
  | none =>
  match matchIdentifier cs with
  | some (v, r) => .ok (.odataIdentifier v, r)
  | none =>
  match matchRWS cs with
  | some r => .ok (.ws, r)
  | none =>
  match cs with
  | '(' :: r => .ok (.lparen, r)
  | ')' :: r => .ok (.rparen, r)
  | ',' :: r => .ok (.comma, r)
  | '/' :: r => .ok (.slash, r)
  | ':' :: r => .ok (.colon, r)
  | _ => .error (.nameError "text")

/-- Fuelled tokenization loop (`ODataLexer.tokenize`); every successful step
consumes at least one character, so `fuel = length + 1` always suffices. -/
def tokenizeGo : Nat → List Char → List Token → Except PyError (List Token)
| 0, _, _ => .error .fuelExhausted
| _ + 1, [], acc => .ok acc.reverse
| fuel + 1, cs, acc => do
  let (t, rest) ← nextToken cs
  tokenizeGo fuel rest (t :: acc)

/-- `ODataLexer().tokenize(text)`, fully evaluated to a token list (the SLY
generator is consumed eagerly by the parser). -/
def tokenize (text : String) : Except PyError (List Token) :=
  tokenizeGo (text.length + 1) text.data []

/-! ## Function registry and call validation (grammar.py) -/

/-- Arg-count specification: a plain `int` or a `(min, max)` tuple. -/
inductive Arity
| exact (n : Nat)
| range (lo hi : Nat)
deriving DecidableEq, Repr

/-- `ODATA_FUNCTIONS`: known functions and their min/max number of args. -/
def ODATA_FUNCTIONS : List (String × Arity) :=
  [("concat", .exact 2),
   ("contains", .exact 2),
   ("endswith", .exact 2),
   ("indexof", .exact 2),
   ("length", .exact 1),
   ("startswith", .exact 2),
   ("substring", .range 2 3),
   ("matchesPattern", .exact 2),
   ("tolower", .exact 1),
   ("toupper", .exact 1),
   ("trim", .exact 1),
   ("year", .exact 1),
   ("month", .exact 1),
   ("day", .exact 1),
   ("hour", .exact 1),
   ("minute", .exact 1),
   ("second", .exact 1),
   ("fractionalseconds", .exact 1),
   ("totalseconds", .exact 1),
   ("date", .exact 1),
   ("time", .exact 1),
   ("totaloffsetminutes", .exact 1),
   ("mindatetime", .exact 0),
   ("maxdatetime", .exact 0),
   ("now", .exact 0),
   ("round", .exact 1),
   ("floor", .exact 1),
   ("ceiling", .exact 1),
   ("geo.distance", .exact 1),
   ("geo.length", .exact 1),
   ("geo.intersects", .exact 2),
   ("hassubset", .exact 2),
   ("hassubsequence", .exact 2)]

/-- `ODataParser._function_call`: validates the function name against
`ODATA_FUNCTIONS` and the argument count against the registered arity,
then builds the `Call` node. -/
def functionCall (funcName : String) (funcNs : List String) (args : List Node) :
    Except PyError Node :=
  match ODATA_FUNCTIONS.lookup funcName with
  | none => throw (.unknownFunctionException funcName)
  | some (.exact n) =>
    if args.length ≠ n then
      throw (.argumentCountException funcName n n args.length)
    else pure (.call funcName funcNs args)
  | some (.range lo hi) =>
    if args.length < lo || args.length > hi then
      throw (.argumentCountException funcName lo hi args.length)
    else pure (.call funcName funcNs args)

/-! ## Attribute re-association (grammar.py `_explode_attr` /
`_reverse_attributes`) -/

/-- `ODataParser._explode_attr` on a well-typed `Attribute` (whose `attr`
field is a `str`). -/
def explodeAttr : Node → Except PyError (List String)
| .attribute owner a => do
  let ownerPart ← match owner with
    | .identifier nm _ => pure [nm]
    | .attribute _ _ => explodeAttr owner
    | _ => throw .notImplementedError
  pure (ownerPart ++ [a])
| _ => throw .notImplementedError

/-- `ODataParser._reverse_attributes` applied to the transient
`Attribute(p[0], p[1])` built in `property_path_expr`, whose `attr`
field holds the node `p[1]` (itself an `Attribute`): explode both parts,
then rebuild left-nested. -/
def reverseAttributes (p0 : Node) (p1 : Node) : Except PyError Node := do
  let ownerPart ← match p0 with
    | .identifier nm _ => pure [nm]
    | .attribute _ _ => explodeAttr p0
    | _ => throw .notImplementedError
  let attrPart ← explodeAttr p1
  let exploded := ownerPart ++ attrPart
  match exploded.getLast? with
  | none => throw .indexError
  | some leaf =>
    match exploded.dropLast with
    | [] => throw .indexError
    | firstName :: inters =>
      pure (.attribute
        (inters.foldl (fun acc i => Node.attribute acc i) (.identifier firstName []))
        leaf)

/-- The reduction body of the second `property_path_expr` production
(`entity_navigation_property single_navigation_expr`): re-associate
attribute chains; for a `CollectionLambda`, push `p[0]` into its owner via
`owner.name` — which is an `AttributeError` when the owner is itself an
`Attribute` (it has no `name` field). -/
def combineSegment (p0name : String) (p1 : Node) : Except PyError Node :=
  match p1 with
  | .attribute _ _ => reverseAttributes (.identifier p0name []) p1
  | .collectionLambda owner op lam =>
    match owner with
    | .identifier ownerName _ =>
      pure (.collectionLambda (.attribute (.identifier p0name []) ownerName) op lam)
    | _ => throw (.attributeError "name")
  | .identifier nm _ => pure (.attribute (.identifier p0name []) nm)
  | _ => throw (.attributeError "name")

/-! ## Parser (grammar.py `ODataParser`)

The SLY LALR(1) parser (start symbol `common_expr`) with its precedence
table, re-expressed as fuelled precedence-climbing recursion over the token
list.  Precedence levels, low to high, as in `ODataParser.precedence`:
`OR`(1) < `AND`(2) < `EQ,NE`(3) < `GT,GE,LT,LE`(4) < `ADD,SUB`(5) <
`MUL,DIV,MOD`(6) < `NOT,UMINUS`(7, right) < `IN`(8).  All binary levels are
left-associative, so the right operand is parsed at `level + 1`;
the prefix operators parse their operand at their own level.  `BWS` (`WS` or
empty) is skipped exactly at the positions the productions allow it. -/

/-- The `BWS` nonterminal: one optional `WS` token. -/
def skipBWS : List Token → List Token
| .ws :: r => r
| ts => ts

/-- Binary operator table: precedence level and node builder. `IN` is
handled separately because its right operand must reduce from `list_expr`. -/
def binOpInfo : Token → Option (Nat × (Node → Node → Node))
| .or => some (1, fun l r => .boolOp .or l r)
| .and => some (2, fun l r => .boolOp .and l r)
| .eq => some (3, fun l r => .compare .eq l r)
| .ne => some (3, fun l r => .compare .notEq l r)
| .gt => some (4, fun l r => .compare .gt l r)
| .ge => some (4, fun l r => .compare .gtE l r)
| .lt => some (4, fun l r => .compare .lt l r)
| .le => some (4, fun l r => .compare .ltE l r)
| .add => some (5, fun l r => .binOp .add l r)
| .sub => some (5, fun l r => .binOp .sub l r)
| .mul => some (6, fun l r => .binOp .mult l r)
| .div => some (6, fun l r => .binOp .div l r)
| .mod => some (6, fun l r => .binOp .mod l r)
| _ => none

set_option maxHeartbeats 1600000 in
mutual

/-- `common_expr` at a minimum precedence level. -/
def parseCommon : Nat → Nat → List Token → Except PyError (Node × List Token)
| 0, _, _ => throw .fuelExhausted
| fuel + 1, minPrec, ts => do
  let (lhs, ts) ← parseNud fuel ts
  parseOps fuel minPrec lhs ts

/-- A primary expression: parenthesized/list expression, unary operator,
primitive literal, or an identifier opening a function call or member
termination_by structural fuel _ _ => fuel
path. -/
def parseNud : Nat → List Token → Except PyError (Node × List Token)
| 0, _ => throw .fuelExhausted
| _ + 1, [] => throw (.parsingException none true)
| fuel + 1, t :: ts =>
  match t with
  | .lparen => parseParen fuel ts
  | .uminus => do
    let (operand, r) ← parseCommon fuel 7 (skipBWS ts)
    pure (.unaryOp .uSub operand, r)
  | .not => do
    let (operand, r) ← parseCommon fuel 7 ts
    pure (.unaryOp .not operand, r)
  | .null => pure (.null, ts)
  | .integer v => pure (.integer v, ts)
  | .decimal v => pure (.float v, ts)
  | .string v => pure (.string v, ts)
  | .boolean v => pure (.boolean v, ts)
  | .guid v => pure (.guid v, ts)
  | .date v => pure (.date v, ts)
  | .time v => pure (.time v, ts)
  | .dateTime v => pure (.dateTime v, ts)
  | .duration v => pure (.duration v, ts)
  | .odataIdentifier nm =>
    match ts with
    | .lparen :: ts' => parseCallArgs fuel nm ts'
    | .slash :: ts' => parsePathSeg fuel nm ts'
    | _ => pure (.identifier nm [], ts)
  | _ => throw (.parsingException (some t) false)
termination_by structural fuel _ => fuel

/-- After an opening `(` that does not follow a function identifier:
either a parenthesized `common_expr` or a `list_expr`. -/
def parseParen : Nat → List Token → Except PyError (Node × List Token)
| 0, _ => throw .fuelExhausted
| fuel + 1, ts => do
  let (e1, ts) ← parseCommon fuel 0 (skipBWS ts)
  let ts := skipBWS ts
  match ts with
  | .rparen :: r => pure (e1, r)
  | .comma :: r =>
    let r := skipBWS r
    match r with
    | .rparen :: r2 => pure (.list [e1], r2)
    | _ => do
      let (e2, r) ← parseCommon fuel 0 r
      parseListItems fuel [e1, e2] r
  | t :: _ => throw (.parsingException (some t) false)
  | [] => throw (.parsingException none true)
termination_by structural fuel _ => fuel

/-- Continuation of `list_items`: after at least two elements, repeatedly
`BWS "," BWS common_expr` until `BWS ")"`. -/
def parseListItems : Nat → List Node → List Token → Except PyError (Node × List Token)
| 0, _, _ => throw .fuelExhausted
| fuel + 1, acc, ts =>
  let ts := skipBWS ts
  match ts with
  | .rparen :: r => pure (.list acc, r)
  | .comma :: r => do
    let (e, r') ← parseCommon fuel 0 (skipBWS r)
    parseListItems fuel (acc ++ [e]) r'
  | t :: _ => throw (.parsingException (some t) false)
  | [] => throw (.parsingException none true)
termination_by structural fuel _ _ => fuel

/-- After `ODATA_IDENTIFIER "("`: the three function-call productions
(`()`, a single parenthesized argument, or a `list_expr` argument list),
each validated through `_function_call`. -/
def parseCallArgs : Nat → String → List Token → Except PyError (Node × List Token)
| 0, _, _ => throw .fuelExhausted
| fuel + 1, nm, ts =>
  match ts with
  | .rparen :: r => do
    let node ← functionCall nm [] []
    pure (node, r)
  | _ => do
    let (e1, ts) ← parseCommon fuel 0 (skipBWS ts)
    let ts := skipBWS ts
    match ts with
    | .rparen :: r => do
      let node ← functionCall nm [] [e1]
      pure (node, r)
    | .comma :: r =>
      let r := skipBWS r
      match r with
      | .rparen :: r2 => do
        let node ← functionCall nm [] [e1]
        pure (node, r2)
      | _ => do
        let (e2, r) ← parseCommon fuel 0 r
        let (lst, r) ← parseListItems fuel [e1, e2] r
        match lst with
        | .list vs => do
          let node ← functionCall nm [] vs
          pure (node, r)
        | _ => throw .fuelExhausted
    | t :: _ => throw (.parsingException (some t) false)
    | [] => throw (.parsingException none true)
termination_by structural fuel _ _ => fuel

/-- After `entity_navigation_property "/"`: either a collection operator
(`any_expr` / `all_expr`) or a further `member_expr`, combined by the
`property_path_expr` reductions. -/
def parsePathSeg : Nat → String → List Token → Except PyError (Node × List Token)
| 0, _, _ => throw .fuelExhausted
| fuel + 1, nm, ts =>
  match ts with
  | .anyKw :: r => do
    let ((op, lam), r) ← parseAnyTail fuel r
    pure (.collectionLambda (.identifier nm []) op lam, r)
  | .allKw :: r => do
    let ((op, lam), r) ← parseAllTail fuel r
    pure (.collectionLambda (.identifier nm []) op lam, r)
  | .odataIdentifier nm2 :: r2 => do
    let (inner, r) ← parseMember fuel nm2 r2
    let node ← combineSegment nm inner
    pure (node, r)
  | t :: _ => throw (.parsingException (some t) false)
  | [] => throw (.parsingException none true)
termination_by structural fuel _ _ => fuel

/-- `member_expr` starting at an already-consumed identifier. -/
def parseMember : Nat → String → List Token → Except PyError (Node × List Token)
| 0, _, _ => throw .fuelExhausted
| fuel + 1, nm, ts =>
  match ts with
  | .slash :: r => parsePathSeg fuel nm r
  | _ => pure (.identifier nm [], ts)
termination_by structural fuel _ _ => fuel

/-- `any_expr` after the `ANY` token: `"(" BWS ")"` or `"(" BWS lambda_ BWS ")"`. -/
def parseAnyTail : Nat → List Token →
    Except PyError ((CollOp × Option Node) × List Token)
| 0, _ => throw .fuelExhausted
| fuel + 1, ts =>
  match ts with
  | .lparen :: r =>
    let r := skipBWS r
    match r with
    | .rparen :: r2 => pure ((.any, none), r2)
    | _ => do
      let (lam, r2) ← parseLambda fuel r
      pure ((.any, some lam), r2)
  | t :: _ => throw (.parsingException (some t) false)
  | [] => throw (.parsingException none true)
termination_by structural fuel _ => fuel

/-- `all_expr` after the `ALL` token: `"(" BWS lambda_ BWS ")"` (the lambda
is mandatory). -/
def parseAllTail : Nat → List Token →
    Except PyError ((CollOp × Option Node) × List Token)
| 0, _ => throw .fuelExhausted
| fuel + 1, ts =>
  match ts with
  | .lparen :: r => do
    let (lam, r2) ← parseLambda fuel (skipBWS r)
    pure ((.all, some lam), r2)
  | t :: _ => throw (.parsingException (some t) false)
  | [] => throw (.parsingException none true)
termination_by structural fuel _ => fuel

/-- `lambda_ BWS ")"` — `ODATA_IDENTIFIER BWS ":" BWS common_expr`
followed by the closing parenthesis of the collection operator. -/
def parseLambda : Nat → List Token → Except PyError (Node × List Token)
| 0, _ => throw .fuelExhausted
| fuel + 1, ts =>
  match ts with
  | .odataIdentifier v :: r =>
    let r := skipBWS r
    match r with
    | .colon :: r2 => do
      let (body, r3) ← parseCommon fuel 0 (skipBWS r2)
      let r3 := skipBWS r3
      match r3 with
      | .rparen :: r4 => pure (.lambda' v [] body, r4)
      | t :: _ => throw (.parsingException (some t) false)
      | [] => throw (.parsingException none true)
    | t :: _ => throw (.parsingException (some t) false)
    | [] => throw (.parsingException none true)
  | t :: _ => throw (.parsingException (some t) false)
  | [] => throw (.parsingException none true)
termination_by structural fuel _ => fuel

/-- Operator loop of the precedence climb: extend `lhs` with binary
operators of precedence at least `minPrec`.  `IN`'s right operand is parsed
strictly as a `list_expr`. -/
def parseOps : Nat → Nat → Node → List Token → Except PyError (Node × List Token)
| 0, _, _, _ => throw .fuelExhausted
| fuel + 1, minPrec, lhs, ts =>
  match ts with
  | .inKw :: rest =>
    if minPrec ≤ 8 then do
      let (lst, r) ← parseListExpr fuel rest
      parseOps fuel minPrec (.compare .inOp lhs lst) r
    else pure (lhs, ts)
  | t :: rest =>
    match binOpInfo t with
    | some (lvl, build) =>
      if minPrec ≤ lvl then do
        let (rhs, r) ← parseCommon fuel (lvl + 1) rest
        parseOps fuel minPrec (build lhs rhs) r
      else pure (lhs, ts)
    | none => pure (lhs, ts)
  | [] => pure (lhs, ts)
termination_by structural fuel _ _ _ => fuel

/-- A strict `list_expr` (the only shape allowed after `IN`):
`"(" BWS common_expr BWS "," …`. -/
def parseListExpr : Nat → List Token → Except PyError (Node × List Token)
| 0, _ => throw .fuelExhausted
| fuel + 1, ts =>
  match ts with
  | .lparen :: r => do
    let (e1, r) ← parseCommon fuel 0 (skipBWS r)
    let r := skipBWS r
    match r with
    | .comma :: r2 =>
      let r2 := skipBWS r2
      match r2 with
      | .rparen :: r3 => pure (.list [e1], r3)
      | _ => do
        let (e2, r3) ← parseCommon fuel 0 r2
        parseListItems fuel [e1, e2] r3
    | t :: _ => throw (.parsingException (some t) false)
    | [] => throw (.parsingException none true)
  | t :: _ => throw (.parsingException (some t) false)
  | [] => throw (.parsingException none true)
termination_by structural fuel _ => fuel

end

/-- `ODataParser().parse(lexer.tokenize(text))`: tokenize, parse a full
`common_expr`, and reject leftover tokens (the LALR parser errors on the
first token that cannot follow the start symbol). -/
def parse (text : String) : Except PyError Node := do
  let ts ← tokenize text
  let (node, rest) ← parseCommon ((ts.length + 2) * 6) 0 ts
  match rest with
  | [] => pure node
  | t :: _ => throw (.parsingException (some t) false)

/-! ## Round-trip printer (roundtrip.py `AstToODataVisitor`)

`PRECEDENCE` maps operator/node classes to levels; anything absent (notably
`In`) defaults to 100 in `_visit_and_paren_if_precedence_lower`. -/

/-- The class keys of the `PRECEDENCE` dict, plus a default key for every
class not in the dict. -/
inductive OpKey
| attributeK
| callK
| notK
| uSubK
| multK
| divK
| modK
| addK
| subK
| gtK
| gtEK
| ltK
| ltEK
| eqK
| notEqK
| andK
| orK
| inK
| otherK
deriving DecidableEq, Repr

/-- The `PRECEDENCE` dict of roundtrip.py. -/
def PRECEDENCE : OpKey → Option Nat
| .attributeK => some 10
| .callK => some 10
| .notK => some 9
| .uSubK => some 9
| .multK => some 8
| .divK => some 8
| .modK => some 8
| .addK => some 7
| .subK => some 7
| .gtK => some 6
| .gtEK => some 6
| .ltK => some 6
| .ltEK => some 6
| .eqK => some 5
| .notEqK => some 5
| .andK => some 4
| .orK => some 3
| _ => none

/-- `PRECEDENCE.get(key, 100)`. -/
def precGet (k : OpKey) : Nat := (PRECEDENCE k).getD 100

def binOpKey : BinOpTok → OpKey
| .add => .addK
| .sub => .subK
| .mult => .multK
| .div => .divK
| .mod => .modK

def cmpKey : CmpTok → OpKey
| .eq => .eqK
| .notEq => .notEqK
| .lt => .ltK
| .ltE => .ltEK
| .gt => .gtK
| .gtE => .gtEK
| .inOp => .inK

def boolOpKey : BoolOpTok → OpKey
| .and => .andK
| .or => .orK

def unaryKey : UnaryTok → OpKey
| .not => .notK
| .uSub => .uSubK

/-- The `node_op` computed inside `_visit_and_paren_if_precedence_lower`:
`type(node.op)` when the node has an `op` field, `type(node.comparator)`
for `Compare`, otherwise `type(node)`. -/
def nodeOpKey : Node → OpKey
| .binOp op _ _ => binOpKey op
| .boolOp op _ _ => boolOpKey op
| .unaryOp op _ => unaryKey op
| .compare c _ _ => cmpKey c
| .attribute _ _ => .attributeK
| .call _ _ _ => .callK
| _ => .otherK

/-- Wrap an already-rendered child in parentheses when its effective
precedence is lower than the parent operator's
(`_visit_and_paren_if_precedence_lower`). -/
def parenIfLower (child : Node) (rendered : String) (check : OpKey) : String :=
  if precGet (nodeOpKey child) < precGet check then "(" ++ rendered ++ ")"
  else rendered

/-- `visit_Add` … `visit_Mod`. -/
def binOpName : BinOpTok → String
| .add => "add"
| .sub => "sub"
| .mult => "mul"
| .div => "div"
| .mod => "mod"

/-- `visit_Eq` … `visit_In`. -/
def cmpName : CmpTok → String
| .eq => "eq"
| .notEq => "ne"
| .lt => "lt"
| .ltE => "le"
| .gt => "gt"
| .gtE => "ge"
| .inOp => "in"

/-- `visit_And` / `visit_Or`. -/
def boolOpName : BoolOpTok → String
| .and => "and"
| .or => "or"

/-- `visit_Not` / `visit_USub`. -/
def unaryName : UnaryTok → String
| .not => "not"
| .uSub => "-"

/-- `visit_Any` / `visit_All`. -/
def collOpName : CollOp → String
| .any => "any"
| .all => "all"

/-- `visit_Identifier`: namespace-qualified with dots when present. -/
def printIdentifier (name : String) (nspace : List String) : String :=
  if nspace.isEmpty then name
  else String.intercalate "." nspace ++ "." ++ name

mutual

/-- `AstToODataVisitor.visit`: serialize an AST node back to OData text.
`Geography` and `NamedParam` have no handler; they fall back to the
value-less `generic_visit` whose `None` result breaks the enclosing string
concatenation (`TypeError`) — both are unreachable from parser output. -/
def astToOData : Node → Except PyError String
| .identifier name ns => pure (printIdentifier name ns)
| .attribute owner attr => do
  pure ((← astToOData owner) ++ "/" ++ attr)
| .null => pure "null"
| .string v => pure ("'" ++ v ++ "'")
| .duration v => pure ("duration'" ++ v ++ "'")
| .integer v => pure v
| .float v => pure v
| .boolean v => pure v
| .date v => pure v
| .time v => pure v
| .dateTime v => pure v
| .guid v => pure v
| .list vs => do
  pure ("(" ++ String.intercalate ", " (← astToODataList vs) ++ ")")
| .binOp op l r => do
  let left := parenIfLower l (← astToOData l) (binOpKey op)
  let right := parenIfLower r (← astToOData r) (binOpKey op)
  pure (left ++ " " ++ binOpName op ++ " " ++ right)
| .compare c l r => do
  let left := parenIfLower l (← astToOData l) (cmpKey c)
  let right := parenIfLower r (← astToOData r) (cmpKey c)
  pure (left ++ " " ++ cmpName c ++ " " ++ right)
| .boolOp op l r => do
  let left := parenIfLower l (← astToOData l) (boolOpKey op)
  let right := parenIfLower r (← astToOData r) (boolOpKey op)
  pure (left ++ " " ++ boolOpName op ++ " " ++ right)
| .unaryOp op operand => do
  let rendered := parenIfLower operand (← astToOData operand) (unaryKey op)
  pure (unaryName op ++ " " ++ rendered)
| .call f ns args => do
  pure (printIdentifier f ns ++ "(" ++ String.intercalate ", " (← astToODataList args) ++ ")")
| .lambda' v ns body => do
  pure (printIdentifier v ns ++ ": " ++ (← astToOData body))
| .collectionLambda owner op lam => do
  let lamStr ← match lam with
    | some l => astToOData l
    | none => pure ""
  pure ((← astToOData owner) ++ "/" ++ collOpName op ++ "(" ++ lamStr ++ ")")
| .geography _ => throw .typeError
| .namedParam _ _ _ => throw .typeError

/-- The generator expressions `", ".join(self.visit(v) for v in …)`. -/
def astToODataList : List Node → Except PyError (List String)
| [] => pure []
| n :: ns => do
  pure ((← astToOData n) :: (← astToODataList ns))

end

/-! ## Type inference (typing.py) -/

/-- The literal classes used as type tags by `infer_type` (plus `Boolean`
for comparisons and the function return table). -/
inductive TypeTag
| nullT
| integerT
| floatT
| booleanT
| stringT
| geographyT
| dateT
| timeT
| dateTimeT
| durationT
| guidT
| listT
deriving DecidableEq, Repr

mutual

/-- `typing.infer_type`: literals map to their own class, `Compare`/`BoolOp`
to `Boolean`, `Call` through `infer_return_type`, anything else to `None`. -/
def inferType : Node → Option TypeTag
| .null => some .nullT
| .integer _ => some .integerT
| .float _ => some .floatT
| .boolean _ => some .booleanT
| .string _ => some .stringT
| .geography _ => some .geographyT
| .date _ => some .dateT
| .time _ => some .timeT
| .dateTime _ => some .dateTimeT
| .duration _ => some .durationT
| .guid _ => some .guidT
| .list _ => some .listT
| .compare _ _ _ => some .booleanT
| .boolOp _ _ _ => some .booleanT
| .call f _ args => inferReturnType f args
| _ => none

/-- `typing.infer_return_type`, keyed on `node.func.name`.  For `concat` the
Python code reads `args[0]` / `args[1]` (an `IndexError` on shorter lists;
unreachable through the visitors, which fail on such calls before inferring);
missing arguments are mapped to `None` here. -/
def inferReturnType (func : String) (args : List Node) : Option TypeTag :=
  if func = "contains" || func = "endswith" || func = "startswith"
      || func = "hassubset" || func = "hassubsequence" || func = "geo.intersects" then
    some .booleanT
  else if func = "indexof" || func = "length" || func = "year" || func = "month"
      || func = "day" || func = "hour" || func = "minute" || func = "second"
      || func = "totaloffsetminutes" then
    some .integerT
  else if func = "fractionalseconds" || func = "totalseconds" || func = "ceiling"
      || func = "floor" || func = "round" || func = "geo.distance" || func = "geo.length" then
    some .floatT
  else if func = "tolower" || func = "toupper" || func = "trim" then
    some .stringT
  else if func = "date" then
    some .dateT
  else if func = "maxdatetime" || func = "mindatetime" || func = "now" then
    some .dateTimeT
  else if func = "concat" then
    match args with
    | a :: rest =>
      match inferType a with
      | some t => some t
      | none =>
        match rest with
        | b :: _ => inferType b
        | [] => none
    | [] => none
  else if func = "substring" then
    match args with
    | a :: _ => inferType a
    | [] => none
  else
    none

end

/-! ## Python string primitives

`str.upper` / `str.lower` / single-character `str.replace`, modelled over
the character list so that they evaluate by kernel reduction (the library
only ever replaces single-character patterns). -/

/-- Python `str.upper()` (ASCII, which is all the sources use). -/
def pyUpper (s : String) : String := String.mk (s.data.map Char.toUpper)

/-- Python `str.lower()` (ASCII). -/
def pyLower (s : String) : String := String.mk (s.data.map Char.toLower)

/-- Python `str.replace(pat, rep)` for a single-character pattern. -/
def pyReplaceChar (s : String) (pat : Char) (rep : String) : String :=
  String.mk (List.flatten (s.data.map fun c => if c = pat then rep.data else [c]))

/-! ## SQL code generation: shared value model

Visitor methods return Python values: strings for almost everything,
`None` from `generic_visit` (which has no return), and `int` from the
SQLite `visit_Boolean`.  f-string interpolation formats any of these;
`str.join` and `+` on `str` require strings and raise `TypeError`
otherwise. -/

inductive PyVal
| str (s : String)
| int (n : Nat)
| none
deriving DecidableEq, Repr

/-- f-string formatting (`str()`) of a handler result. -/
def PyVal.fmt : PyVal → String
| .str s => s
| .int n => toString n
| .none => "None"

/-- Use of a handler result where Python demands `str` (`+` on strings,
`str.join`): anything else raises `TypeError`. -/
def PyVal.asStr : PyVal → Except PyError String
| .str s => pure s
| _ => throw .typeError

/-- `", ".join(self.visit(n) for n in …)`. -/
def joinPyStr (sep : String) (vals : List PyVal) : Except PyError String := do
  let strs ← vals.mapM PyVal.asStr
  pure (String.intercalate sep strs)

@[simp] theorem except_bind_ok {α β ε : Type} (a : α) (f : α → Except ε β) :
    (Except.ok a >>= f : Except ε β) = f a := rfl

@[simp] theorem except_bind_error {α β ε : Type} (e : ε) (f : α → Except ε β) :
    (Except.error e >>= f : Except ε β) = Except.error e := rfl

@[simp] theorem except_pure_eq_ok {α ε : Type} (a : α) :
    (pure a : Except ε α) = Except.ok a := rfl

@[simp] theorem except_throw_eq_error {α : Type} (e : PyError) :
    (throw e : Except PyError α) = Except.error e := rfl

/-! ## Generic SQL visitor (sql/base.py `AstToSqlVisitor`)

`tableAlias` is the constructor argument.  Node kinds without a `visit_`
method (`Attribute`, `Time`, `Geography`, `Lambda`, `CollectionLambda`,
`NamedParam`, and the `USub` operator token) fall back to `generic_visit`,
which visits child nodes for effect and returns `None`; visiting the bare
operator-token children (`Any()`, `All()`, `Identifier` of a lambda) is
effect-free and elided. -/

/-- `visit_Eq` … `visit_In` of the SQL visitors. -/
def cmpSqlName : CmpTok → String
| .eq => "="
| .notEq => "!="
| .lt => "<"
| .ltE => "<="
| .gt => ">"
| .gtE => ">="
| .inOp => "IN"

/-- `visit_Add` … `visit_Mod` of the SQL visitors. -/
def binOpSqlName : BinOpTok → String
| .add => "+"
| .sub => "-"
| .mult => "*"
| .div => "/"
| .mod => "%"

/-- `visit_And` / `visit_Or` of the SQL visitors. -/
def boolOpSqlName : BoolOpTok → String
| .and => "AND"
| .or => "OR"

/-- `visit_BoolOp`'s operand wrapping: a rendered child is parenthesized
exactly when it is itself a `BoolOp` whose operator differs from the
parent's (`isinstance(node.left, ast.BoolOp) and node.left.op != node.op`);
every other child — including a `Compare` — is left bare. -/
def boolChildSql (op : BoolOpTok) (child : Node) (s : String) : String :=
  match child with
  | .boolOp cop _ _ => if cop ≠ op then "(" ++ s ++ ")" else s
  | _ => s

/-- The operand of `_to_pattern`'s `str(arg.val)` branch: nodes carrying a
string `val`.  A `List` val is a Python list (its `str()` is a debug repr,
modelled as unusable); other nodes have no `val` field (`AttributeError`). -/
def toPatternVal : Node → Except PyError String
| .integer v => pure v
| .float v => pure v
| .boolean v => pure v
| .string v => pure v
| .geography v => pure v
| .date v => pure v
| .time v => pure v
| .dateTime v => pure v
| .duration v => pure v
| .guid v => pure v
| .list _ => throw .typeError
| _ => throw (.attributeError "val")

/-- `isinstance(node.right, ast.Null)` — the NULL-comparison test of
`visit_Compare`. -/
def isNullNode : Node → Bool
| .null => true
| _ => false

/-- The comparator actually emitted by `visit_Compare`: `eq`/`ne` against a
`Null` right operand become `IS`/`IS NOT`. -/
def compareOperator (c : CmpTok) (r : Node) : String :=
  if isNullNode r then
    match c with
    | .eq => "IS"
    | .notEq => "IS NOT"
    | _ => cmpSqlName c
  else cmpSqlName c

/-- `isinstance(arg, (ast.Identifier, ast.Call))` — the `_to_pattern`
branch test. -/
def isIdentOrCall : Node → Bool
| .identifier _ _ => true
| .call _ _ _ => true
| _ => false

theorem one_le_sizeOf_str (s : String) : 1 ≤ sizeOf s := by
  cases s; simp

theorem one_le_sizeOf_strList (l : List String) : 1 ≤ sizeOf l := by
  cases l <;> simp_arith

/-- Whether a node is an `ast.BoolOp` or `ast.Compare` (the
"boolean sub-expression" parenthesization test of `visit_Compare`). -/
def isBoolOpOrCompare : Node → Bool
| .boolOp _ _ _ => true
| .compare _ _ _ => true
| _ => false

/-- `visit_Duration` of the base visitor: explode into INTERVAL terms. -/
def baseDurationSql (v : String) : Except PyError String :=
  match durationUnpack v with
  | .none => throw (.valueError ("Could not unpack Duration with value " ++ v))
  | some g =>
    let sign := (g.sign).getD ""
    let intervals :=
      (match g.years with | some y => ["INTERVAL '" ++ y ++ "' YEAR"] | .none => []) ++
      (match g.months with | some m => ["INTERVAL '" ++ m ++ "' MONTH"] | .none => []) ++
      (match g.days with | some d => ["INTERVAL '" ++ d ++ "' DAY"] | .none => []) ++
      (match g.hours with | some h => ["INTERVAL '" ++ h ++ "' HOUR"] | .none => []) ++
      (match g.minutes with | some m => ["INTERVAL '" ++ m ++ "' MINUTE"] | .none => []) ++
      (match g.seconds with | some s => ["INTERVAL '" ++ s ++ "' SECOND"] | .none => [])
    match intervals with
    | [] => pure ""
    | [one] => pure (sign ++ one)
    | _ => pure (sign ++ "(" ++ String.intercalate " + " intervals ++ ")")

mutual

/-- `AstToSqlVisitor.visit`. -/
def visitB : Option String → Node → Except PyError PyVal
| tAlias, node =>
  match node with
  | .identifier name _ =>
    let sqlId := "\"" ++ name ++ "\""
    match tAlias with
    | some a => pure (.str ("\"" ++ a ++ "\"." ++ sqlId))
    | .none => pure (.str sqlId)
  | .null => pure (.str "NULL")
  | .integer v => pure (.str v)
  | .float v => pure (.str v)
  | .boolean v => pure (.str (pyUpper v))
  | .string v => pure (.str ("'" ++ pyReplaceChar v '\'' "''" ++ "'"))
  | .date v => pure (.str ("DATE '" ++ v ++ "'"))
  | .dateTime v => pure (.str ("TIMESTAMP '" ++ pyReplaceChar v 'T' " " ++ "'"))
  | .duration v => do pure (.str (← baseDurationSql v))
  | .guid v => pure (.str ("'" ++ v ++ "'"))
  | .time _ => pure .none
  | .geography _ => pure .none
  | .attribute owner _ => do
    let _ ← visitB tAlias owner
    pure .none
  | .lambda' _ _ body => do
    let _ ← visitB tAlias body
    pure .none
  | .namedParam _ _ p => do
    let _ ← visitB tAlias p
    pure .none
  | .collectionLambda owner _ lam => do
    let _ ← visitB tAlias owner
    match lam with
    | some l => do
      let _ ← visitB tAlias l
      pure .none
    | .none => pure .none
  | .list vs => do
    let vals ← visitBList tAlias vs
    pure (.str ("(" ++ (← joinPyStr ", " vals) ++ ")"))
  | .binOp op l r => do
    let left ← visitB tAlias l
    let right ← visitB tAlias r
    pure (.str (left.fmt ++ " " ++ binOpSqlName op ++ " " ++ right.fmt))
  | .compare c l r => do
    let left ← visitB tAlias l
    let right ← visitB tAlias r
    let leftS := if isBoolOpOrCompare l then "(" ++ left.fmt ++ ")" else left.fmt
    let rightS := if isBoolOpOrCompare r then "(" ++ right.fmt ++ ")" else right.fmt
    pure (.str (leftS ++ " " ++ compareOperator c r ++ " " ++ rightS))
  | .boolOp op l r => do
    let left ← visitB tAlias l
    let right ← visitB tAlias r
    pure (.str (boolChildSql op l left.fmt ++ " " ++ boolOpSqlName op ++ " "
      ++ boolChildSql op r right.fmt))
  | .unaryOp op operand => do
    let opv : PyVal := match op with
      | .not => .str "NOT"
      | .uSub => .none
    let rendered ← visitB tAlias operand
    let renderedS :=
      match operand with
      | .boolOp _ _ _ => "(" ++ rendered.fmt ++ ")"
      | _ => rendered.fmt
    pure (.str (opv.fmt ++ " " ++ renderedS))
  | .call f _ args => do
    match ← sqlfuncB tAlias (pyLower f) args with
    | some s => pure (.str s)
    | .none => throw (.unsupportedFunctionException f)
termination_by _ n => sizeOf n
decreasing_by
all_goals simp_wf
all_goals (try omega)
all_goals
  (rename_i ns
   have h1 := one_le_sizeOf_str f
   have h2 := one_le_sizeOf_strList ns
   omega)

/-- `[self.visit(arg) for arg in args]`. -/
def visitBList : Option String → List Node → Except PyError (List PyVal)
| _, [] => pure []
| tAlias, n :: ns => do
  let v ← visitB tAlias n
  let vs ← visitBList tAlias ns
  pure (v :: vs)
termination_by _ l => sizeOf l
decreasing_by all_goals (simp_wf <;> omega)

/-- `_to_pattern`: `Identifier`/`Call` arguments stay SQL expressions
(wrapped in `||` concatenations), anything else is quoted with `%`/`_`
escaped. -/
def toPatternB : Option String → Node → String → String → Except PyError String
| tAlias, arg, pre, suf =>
  if isIdentOrCall arg then do
    let res ← (← visitB tAlias arg).asStr
    let res := if pre ≠ "" then "'" ++ pre ++ "' || " ++ res else res
    let res := if suf ≠ "" then res ++ " || '" ++ suf ++ "'" else res
    pure res
  else do
    let v ← toPatternVal arg
    let v := pyReplaceChar (pyReplaceChar v '%' "%%") '_' "__"
    pure ("'" ++ pre ++ v ++ suf ++ "'")
termination_by _ arg _ _ => sizeOf arg + 1
decreasing_by all_goals simp_wf

/-- The `sqlfunc_*` handlers of the base visitor, dispatched by lowercased
function name; `none` when the class has no such handler (the
`getattr`/`AttributeError` path of `visit_Call`).  Handlers with a fixed
(`self, arg`) signature raise `TypeError` when called with a different
argument count; `*args` handlers fail with `IndexError` on missing
elements. -/
def sqlfuncB : Option String → String → List Node → Except PyError (Option String)
| tAlias, key, args =>
  if key = "concat" then do
    let argsSql ← visitBList tAlias args
    match argsSql with
    | a :: b :: _ => pure (some (a.fmt ++ " || " ++ b.fmt))
    | _ => throw .indexError
  else if key = "contains" then do
    let argsSql ← visitBList tAlias args
    let inferred := args.map inferType
    if inferred.any (· = some .stringT) || inferred.all (· = Option.none) then
      match args, argsSql with
      | _ :: a1 :: _, s0 :: _ => do
        let pat ← toPatternB tAlias a1 "%" "%"
        pure (some (s0.fmt ++ " LIKE " ++ pat))
      | _, _ => throw .indexError
    else if inferred.any (· = some .listT) then
      throw (.unsupportedFunctionException "contains<List>")
    else
      throw (.argumentTypeException "contains")
  else if key = "endswith" then do
    let argsSql ← visitBList tAlias args
    let inferred := args.map inferType
    if inferred.any (· = some .stringT) || inferred.all (· = Option.none) then
      match args, argsSql with
      | _ :: a1 :: _, s0 :: _ => do
        let pat ← toPatternB tAlias a1 "%" ""
        pure (some (s0.fmt ++ " LIKE " ++ pat))
      | _, _ => throw .indexError
    else if inferred.any (· = some .listT) then
      throw (.unsupportedFunctionException "endswith<List>")
    else
      throw (.argumentTypeException "endswith")
  else if key = "indexof" then do
    let argsSql ← visitBList tAlias args
    let inferred := args.map inferType
    if inferred.any (· = some .stringT) || inferred.all (· = Option.none) then
      match argsSql with
      | s0 :: s1 :: _ => pure (some ("POSITION(" ++ s1.fmt ++ " IN " ++ s0.fmt ++ ") - 1"))
      | _ => throw .indexError
    else if inferred.any (· = some .listT) then
      throw (.unsupportedFunctionException "indexof<List>")
    else
      throw (.argumentTypeException "indexof")
  else if key = "length" then
    match args with
    | [arg] => do
      let argSql ← visitB tAlias arg
      let inferred := inferType arg
      if inferred = some .stringT || inferred = Option.none then
        pure (some ("CHAR_LENGTH(" ++ argSql.fmt ++ ")"))
      else if inferred = some .listT then
        pure (some ("CARDINALITY(" ++ argSql.fmt ++ ")"))
      else
        throw (.argumentTypeException "length")
    | _ => throw .typeError
  else if key = "startswith" then do
    let argsSql ← visitBList tAlias args
    let inferred := args.map inferType
    if inferred.any (· = some .stringT) || inferred.all (· = Option.none) then
      match args, argsSql with
      | _ :: a1 :: _, s0 :: _ => do
        let pat ← toPatternB tAlias a1 "" "%"
        pure (some (s0.fmt ++ " LIKE " ++ pat))
      | _, _ => throw .indexError
    else if inferred.any (· = some .listT) then
      throw (.unsupportedFunctionException "startswith<List>")
    else
      throw (.argumentTypeException "startswith")
  else if key = "substring" then do
    let argsSql ← visitBList tAlias args
    match args with
    | [] => throw .indexError
    | a0 :: _ =>
      let inferred := inferType a0
      if inferred = some .stringT || inferred = Option.none then
        match argsSql with
        | [s0, s1] => pure (some ("SUBSTRING(" ++ s0.fmt ++ " FROM " ++ s1.fmt ++ " + 1)"))
        | [s0, s1, s2] =>
          pure (some ("SUBSTRING(" ++ s0.fmt ++ " FROM " ++ s1.fmt ++ " + 1 FOR " ++ s2.fmt ++ ")"))
        | _ =>
          if inferred = some .listT then throw (.unsupportedFunctionException "substring<List>")
          else throw (.argumentTypeException "substring")
      else if inferred = some .listT then
        throw (.unsupportedFunctionException "substring<List>")
      else
        throw (.argumentTypeException "substring")
  else if key = "tolower" then
    match args with
    | [arg] => do pure (some ("LOWER(" ++ (← visitB tAlias arg).fmt ++ ")"))
    | _ => throw .typeError
  else if key = "toupper" then
    match args with
    | [arg] => do pure (some ("UPPER(" ++ (← visitB tAlias arg).fmt ++ ")"))
    | _ => throw .typeError
  else if key = "trim" then
    match args with
    | [arg] => do pure (some ("TRIM(" ++ (← visitB tAlias arg).fmt ++ ")"))
    | _ => throw .typeError
  else if key = "year" then
    match args with
    | [arg] => do pure (some ("EXTRACT (YEAR FROM " ++ (← visitB tAlias arg).fmt ++ ")"))
    | _ => throw .typeError
  else if key = "month" then
    match args with
    | [arg] => do pure (some ("EXTRACT (MONTH FROM " ++ (← visitB tAlias arg).fmt ++ ")"))
    | _ => throw .typeError
  else if key = "day" then
    match args with
    | [arg] => do pure (some ("EXTRACT (DAY FROM " ++ (← visitB tAlias arg).fmt ++ ")"))
    | _ => throw .typeError
  else if key = "hour" then
    match args with
    | [arg] => do pure (some ("EXTRACT (HOUR FROM " ++ (← visitB tAlias arg).fmt ++ ")"))
    | _ => throw .typeError
  else if key = "minute" then
    match args with
    | [arg] => do pure (some ("EXTRACT (MINUTE FROM " ++ (← visitB tAlias arg).fmt ++ ")"))
    | _ => throw .typeError
  else if key = "date" then
    match args with
    | [arg] => do pure (some ("CAST (" ++ (← visitB tAlias arg).fmt ++ " AS DATE)"))
    | _ => throw .typeError
  else if key = "now" then
    match args with
    | [] => pure (some "CURRENT_TIMESTAMP")
    | _ => throw .typeError
  else if key = "round" then
    match args with
    | [arg] => do pure (some ("CAST (" ++ (← visitB tAlias arg).fmt ++ " + 0.5 AS INTEGER)"))
    | _ => throw .typeError
  else if key = "floor" then
    match args with
    | [arg] => do
      let a := (← visitB tAlias arg).fmt
      pure (some ("CASE " ++ a ++ "\n    WHEN > 0 CAST (" ++ a ++ " AS INTEGER)\n    WHEN < 0 CAST (0 - (ABS(" ++ a ++ ") + 0.5) AS INTEGER))\n    ELSE " ++ a ++ "\nEND"))
    | _ => throw .typeError
  else if key = "ceiling" then
    match args with
    | [arg] => do
      let a := (← visitB tAlias arg).fmt
      pure (some ("CASE " ++ a ++ " - CAST (" ++ a ++ " AS INTEGER)\n    WHEN > 0 " ++ a ++ "+1\n    WHEN < 0 " ++ a ++ "-1\n    ELSE " ++ a ++ "\nEND"))
    | _ => throw .typeError
  else if key = "hassubset" then
    throw (.unsupportedFunctionException "hassubset")
  else
    pure Option.none
termination_by _ _ args => sizeOf args + 2
decreasing_by all_goals (simp_wf <;> omega)

end

/-! ## SQLite visitor (sql/sqlite.py `AstToSqliteSqlVisitor`)

Differences from the base visitor: identifiers are cleaned
(`clean_sqlite_identifier`), `visit_Boolean` returns an `int`, date/datetime
use `date(…)`/`datetime(…)`, there is no `visit_Duration` (fallback to
`generic_visit`), and the string functions slice the rendered argument
instead of `_to_pattern`. -/

/-- `clean_sqlite_identifier`: lowercase, replace `[^a-zA-Z0-9_]` by `_`;
the leading-character inspection (`id_new[0]`) only logs a warning but is
an `IndexError` on an empty name. -/
def cleanSqliteIdentifier (identifier : String) : Except PyError String :=
  let idNew := pyLower identifier
  let idNew := String.mk (idNew.data.map fun c =>
    if c.isAlpha || c.isDigit || c = '_' then c else '_')
  match idNew.data with
  | [] => throw .indexError
  | _ => pure idNew

/-- Python string slice `s[1:-1]`. -/
def sliceInner (s : String) : String :=
  String.mk ((s.data.drop 1).dropLast)

mutual

/-- `AstToSqliteSqlVisitor.visit`. -/
def visitS : Option String → Node → Except PyError PyVal
| tAlias, node =>
  match node with
  | .identifier name _ => do
    let sqlId := "\"" ++ (← cleanSqliteIdentifier name) ++ "\""
    match tAlias with
    | some a => pure (.str ("\"" ++ a ++ "\"." ++ sqlId))
    | .none => pure (.str sqlId)
  | .null => pure (.str "NULL")
  | .integer v => pure (.str v)
  | .float v => pure (.str v)
  | .boolean v => pure (.int (if v = "false" then 0 else 1))
  | .string v => pure (.str ("'" ++ pyReplaceChar v '\'' "''" ++ "'"))
  | .date v => pure (.str ("date('" ++ v ++ "')"))
  | .dateTime v => pure (.str ("datetime('" ++ v ++ "')"))
  | .guid v => pure (.str ("'" ++ v ++ "'"))
  | .duration _ => pure .none
  | .time _ => pure .none
  | .geography _ => pure .none
  | .attribute owner _ => do
    let _ ← visitS tAlias owner
    pure .none
  | .lambda' _ _ body => do
    let _ ← visitS tAlias body
    pure .none
  | .namedParam _ _ p => do
    let _ ← visitS tAlias p
    pure .none
  | .collectionLambda owner _ lam => do
    let _ ← visitS tAlias owner
    match lam with
    | some l => do
      let _ ← visitS tAlias l
      pure .none
    | .none => pure .none
  | .list vs => do
    let vals ← visitSList tAlias vs
    pure (.str ("(" ++ (← joinPyStr ", " vals) ++ ")"))
  | .binOp op l r => do
    let left ← visitS tAlias l
    let right ← visitS tAlias r
    pure (.str (left.fmt ++ " " ++ binOpSqlName op ++ " " ++ right.fmt))
  | .compare c l r => do
    let left ← visitS tAlias l
    let right ← visitS tAlias r
    let leftS := if isBoolOpOrCompare l then "(" ++ left.fmt ++ ")" else left.fmt
    let rightS := if isBoolOpOrCompare r then "(" ++ right.fmt ++ ")" else right.fmt
    pure (.str (leftS ++ " " ++ compareOperator c r ++ " " ++ rightS))
  | .boolOp op l r => do
    let left ← visitS tAlias l
    let right ← visitS tAlias r
    pure (.str (boolChildSql op l left.fmt ++ " " ++ boolOpSqlName op ++ " "
      ++ boolChildSql op r right.fmt))
  | .unaryOp op operand => do
    let opv : PyVal := match op with
      | .not => .str "NOT"
      | .uSub => .none
    let rendered ← visitS tAlias operand
    let renderedS :=
      match operand with
      | .boolOp _ _ _ => "(" ++ rendered.fmt ++ ")"
      | _ => rendered.fmt
    pure (.str (opv.fmt ++ " " ++ renderedS))
  | .call f _ args => do
    match ← sqlfuncS tAlias (pyLower f) args with
    | some s => pure (.str s)
    | .none => throw (.unsupportedFunctionException f)
termination_by _ n => sizeOf n
decreasing_by
all_goals simp_wf
all_goals (try omega)
all_goals
  (rename_i ns
   have h1 := one_le_sizeOf_str f
   have h2 := one_le_sizeOf_strList ns
   omega)

/-- `[self.visit(arg) for arg in args]` for the SQLite visitor. -/
def visitSList : Option String → List Node → Except PyError (List PyVal)
| _, [] => pure []
| tAlias, n :: ns => do
  let v ← visitS tAlias n
  let vs ← visitSList tAlias ns
  pure (v :: vs)
termination_by _ l => sizeOf l
decreasing_by all_goals (simp_wf <;> omega)

/-- The `sqlfunc_*` handlers of the SQLite visitor. -/
def sqlfuncS : Option String → String → List Node → Except PyError (Option String)
| tAlias, key, args =>
  if key = "concat" then do
    let argsSql ← visitSList tAlias args
    pure (some (← joinPyStr " || " argsSql))
  else if key = "contains" then
    match args with
    | [field, substr] => do
      let left ← visitS tAlias field
      let right ← (← visitS tAlias substr).asStr
      let right := "'%" ++ sliceInner right ++ "%'"
      pure (some (left.fmt ++ " LIKE " ++ right))
    | _ => throw .typeError
  else if key = "endswith" then
    match args with
    | [field, substr] => do
      let left ← visitS tAlias field
      let right ← (← visitS tAlias substr).asStr
      let right := "'%" ++ sliceInner right ++ "'"
      pure (some (left.fmt ++ " LIKE " ++ right))
    | _ => throw .typeError
  else if key = "indexof" then
    match args with
    | [l, r] => do
      let left ← visitS tAlias l
      let right ← visitS tAlias r
      pure (some ("INSTR(" ++ left.fmt ++ ", " ++ right.fmt ++ ") - 1"))
    | _ => throw .typeError
  else if key = "length" then
    match args with
    | [arg] => do pure (some ("length(" ++ (← visitS tAlias arg).fmt ++ ")"))
    | _ => throw .typeError
  else if key = "startswith" then
    match args with
    | [field, substr] => do
      let left ← visitS tAlias field
      let right ← (← visitS tAlias substr).asStr
      let right := "'" ++ sliceInner right ++ "%'"
      pure (some (left.fmt ++ " LIKE " ++ right))
    | _ => throw .typeError
  else if key = "substring" then do
    let argsSql ← visitSList tAlias args
    match args with
    | [] => throw .indexError
    | a0 :: _ =>
      let inferred := inferType a0
      if inferred = some .stringT || inferred = Option.none then
        match argsSql with
        | [s0, s1] => pure (some ("substr(" ++ s0.fmt ++ ", " ++ s1.fmt ++ " + 1)"))
        | [s0, s1, s2] =>
          pure (some ("substr(" ++ s0.fmt ++ ", " ++ s1.fmt ++ " + 1, " ++ s2.fmt ++ ")"))
        | _ =>
          if inferred = some .listT then throw (.argumentTypeException "substring")
          else throw (.argumentTypeException "substring")
      else if inferred = some .listT then
        match argsSql with
        | [s0, s1] => pure (some ("slice(" ++ s0.fmt ++ ", " ++ s1.fmt ++ ")"))
        | [s0, s1, s2] =>
          pure (some ("slice(" ++ s0.fmt ++ ", " ++ s1.fmt ++ ", " ++ s2.fmt ++ ")"))
        | _ => throw (.argumentTypeException "substring")
      else
        throw (.argumentTypeException "substring")
  else if key = "tolower" then
    match args with
    | [arg] => do pure (some ("lower(" ++ (← visitS tAlias arg).fmt ++ ")"))
    | _ => throw .typeError
  else if key = "toupper" then
    match args with
    | [arg] => do pure (some ("upper(" ++ (← visitS tAlias arg).fmt ++ ")"))
    | _ => throw .typeError
  else if key = "trim" then
    match args with
    | [arg] => do pure (some ("trim(" ++ (← visitS tAlias arg).fmt ++ ")"))
    | _ => throw .typeError
  else if key = "year" then
    match args with
    | [arg] => do pure (some ("strftime('%y', " ++ (← visitS tAlias arg).fmt ++ ")"))
    | _ => throw .typeError
  else if key = "month" then
    match args with
    | [arg] => do pure (some ("strftime('%m', " ++ (← visitS tAlias arg).fmt ++ ")"))
    | _ => throw .typeError
  else if key = "day" then
    match args with
    | [arg] => do pure (some ("strftime('%d', " ++ (← visitS tAlias arg).fmt ++ ")"))
    | _ => throw .typeError
  else if key = "hour" then
    match args with
    | [arg] => do pure (some ("strftime('%H', " ++ (← visitS tAlias arg).fmt ++ ")"))
    | _ => throw .typeError
  else if key = "minute" then
    match args with
    | [arg] => do pure (some ("strftime('%M', " ++ (← visitS tAlias arg).fmt ++ ")"))
    | _ => throw .typeError
  else if key = "date" then
    match args with
    | [arg] => do pure (some ("date(" ++ (← visitS tAlias arg).fmt ++ ")"))
    | _ => throw .typeError
  else if key = "now" then
    match args with
    | [] => pure (some "datetime('now')")
    | _ => throw .typeError
  else if key = "round" then
    match args with
    | [arg] => do pure (some ("round(" ++ (← visitS tAlias arg).fmt ++ ")"))
    | _ => throw .typeError
  else if key = "floor" then
    match args with
    | [arg] => do pure (some ("floor(" ++ (← visitS tAlias arg).fmt ++ ")"))
    | _ => throw .typeError
  else if key = "ceiling" then
    match args with
    | [arg] => do pure (some ("ceiling(" ++ (← visitS tAlias arg).fmt ++ ")"))
    | _ => throw .typeError
  else
    pure Option.none
termination_by _ _ args => sizeOf args + 2
decreasing_by all_goals (simp_wf <;> omega)

end

/-! ## Athena visitor (sql/athena.py `AstToAthenaSqlVisitor`)

Differences from the base visitor: cleaned identifiers, Presto-style
datetime literals and string functions, and a `visit_Duration` that unpacks
`node.unpack()`'s 7-tuple into five names — an unconditional `ValueError`
(`too many values to unpack`) whenever the duration value itself is
well-formed. -/

/-- `clean_athena_identifier` (same logic as the SQLite cleaner). -/
def cleanAthenaIdentifier (identifier : String) : Except PyError String :=
  let idNew := pyLower identifier
  let idNew := String.mk (idNew.data.map fun c =>
    if c.isAlpha || c.isDigit || c = '_' then c else '_')
  match idNew.data with
  | [] => throw .indexError
  | _ => pure idNew

mutual

/-- `AstToAthenaSqlVisitor.visit`. -/
def visitA : Option String → Node → Except PyError PyVal
| tAlias, node =>
  match node with
  | .identifier name _ => do
    let sqlId := "\"" ++ (← cleanAthenaIdentifier name) ++ "\""
    match tAlias with
    | some a => pure (.str ("\"" ++ a ++ "\"." ++ sqlId))
    | .none => pure (.str sqlId)
  | .null => pure (.str "NULL")
  | .integer v => pure (.str v)
  | .float v => pure (.str v)
  | .boolean v => pure (.str (pyUpper v))
  | .string v => pure (.str ("'" ++ pyReplaceChar v '\'' "''" ++ "'"))
  | .date v => pure (.str ("DATE '" ++ v ++ "'"))
  | .dateTime v => pure (.str ("from_iso8601_timestamp('" ++ v ++ "')"))
  | .duration v =>
    match durationUnpack v with
    | .none => throw (.valueError ("Could not unpack Duration with value " ++ v))
    | some _ => throw (.valueError "too many values to unpack (expected 5)")
  | .guid v => pure (.str ("'" ++ v ++ "'"))
  | .time _ => pure .none
  | .geography _ => pure .none
  | .attribute owner _ => do
    let _ ← visitA tAlias owner
    pure .none
  | .lambda' _ _ body => do
    let _ ← visitA tAlias body
    pure .none
  | .namedParam _ _ p => do
    let _ ← visitA tAlias p
    pure .none
  | .collectionLambda owner _ lam => do
    let _ ← visitA tAlias owner
    match lam with
    | some l => do
      let _ ← visitA tAlias l
      pure .none
    | .none => pure .none
  | .list vs => do
    let vals ← visitAList tAlias vs
    pure (.str ("(" ++ (← joinPyStr ", " vals) ++ ")"))
  | .binOp op l r => do
    let left ← visitA tAlias l
    let right ← visitA tAlias r
    pure (.str (left.fmt ++ " " ++ binOpSqlName op ++ " " ++ right.fmt))
  | .compare c l r => do
    let left ← visitA tAlias l
    let right ← visitA tAlias r
    let leftS := if isBoolOpOrCompare l then "(" ++ left.fmt ++ ")" else left.fmt
    let rightS := if isBoolOpOrCompare r then "(" ++ right.fmt ++ ")" else right.fmt
    pure (.str (leftS ++ " " ++ compareOperator c r ++ " " ++ rightS))
  | .boolOp op l r => do
    let left ← visitA tAlias l
    let right ← visitA tAlias r
    pure (.str (boolChildSql op l left.fmt ++ " " ++ boolOpSqlName op ++ " "
      ++ boolChildSql op r right.fmt))
  | .unaryOp op operand => do
    let opv : PyVal := match op with
      | .not => .str "NOT"
      | .uSub => .none
    let rendered ← visitA tAlias operand
    let renderedS :=
      match operand with
      | .boolOp _ _ _ => "(" ++ rendered.fmt ++ ")"
      | _ => rendered.fmt
    pure (.str (opv.fmt ++ " " ++ renderedS))
  | .call f _ args => do
    match ← sqlfuncA tAlias (pyLower f) args with
    | some s => pure (.str s)
    | .none => throw (.unsupportedFunctionException f)
termination_by _ n => sizeOf n
decreasing_by
all_goals simp_wf
all_goals (try omega)
all_goals
  (rename_i ns
   have h1 := one_le_sizeOf_str f
   have h2 := one_le_sizeOf_strList ns
   omega)

/-- `[self.visit(arg) for arg in args]` for the Athena visitor. -/
def visitAList : Option String → List Node → Except PyError (List PyVal)
| _, [] => pure []
| tAlias, n :: ns => do
  let v ← visitA tAlias n
  let vs ← visitAList tAlias ns
  pure (v :: vs)
termination_by _ l => sizeOf l
decreasing_by all_goals (simp_wf <;> omega)

/-- The `sqlfunc_*` handlers of the Athena visitor. -/
def sqlfuncA : Option String → String → List Node → Except PyError (Option String)
| tAlias, key, args =>
  if key = "concat" then do
    let argsSql ← visitAList tAlias args
    match argsSql with
    | a :: b :: _ => pure (some ("concat(" ++ a.fmt ++ ", " ++ b.fmt ++ ")"))
    | _ => throw .indexError
  else if key = "contains" then do
    let argsSql ← visitAList tAlias args
    let inferred := args.map inferType
    if inferred.any (· = some .stringT) || inferred.all (· = Option.none) then
      match argsSql with
      | s0 :: s1 :: _ => pure (some ("strpos(" ++ s0.fmt ++ ", " ++ s1.fmt ++ ") > 0"))
      | _ => throw .indexError
    else if inferred.any (· = some .listT) then
      throw (.unsupportedFunctionException "contains<List>")
    else
      throw (.argumentTypeException "contains")
  else if key = "endswith" then do
    let argsSql ← visitAList tAlias args
    let inferred := args.map inferType
    if inferred.any (· = some .stringT) || inferred.all (· = Option.none) then
      match argsSql with
      | s0 :: s1 :: _ =>
        pure (some ("strpos(" ++ s0.fmt ++ ", " ++ s1.fmt ++ ") = length(" ++ s0.fmt
          ++ ") - length(" ++ s1.fmt ++ ") + 1"))
      | _ => throw .indexError
    else if inferred.any (· = some .listT) then
      throw (.unsupportedFunctionException "endswith<List>")
    else
      throw (.argumentTypeException "endswith")
  else if key = "indexof" then do
    let argsSql ← visitAList tAlias args
    let inferred := args.map inferType
    if inferred.any (· = some .stringT) || inferred.all (· = Option.none) then
      match argsSql with
      | s0 :: s1 :: _ => pure (some ("strpos(" ++ s0.fmt ++ ", " ++ s1.fmt ++ ") - 1"))
      | _ => throw .indexError
    else if inferred.any (· = some .listT) then
      throw (.unsupportedFunctionException "indexof<List>")
    else
      throw (.argumentTypeException "indexof")
  else if key = "length" then
    match args with
    | [arg] => do
      let argSql ← visitA tAlias arg
      let inferred := inferType arg
      if inferred = some .stringT || inferred = Option.none then
        pure (some ("length(" ++ argSql.fmt ++ ")"))
      else if inferred = some .listT then
        pure (some ("cardinality(" ++ argSql.fmt ++ ")"))
      else
        throw (.argumentTypeException "length")
    | _ => throw .typeError
  else if key = "startswith" then do
    let argsSql ← visitAList tAlias args
    let inferred := args.map inferType
    if inferred.any (· = some .stringT) || inferred.all (· = Option.none) then
      match argsSql with
      | s0 :: s1 :: _ => pure (some ("strpos(" ++ s0.fmt ++ ", " ++ s1.fmt ++ ") = 1"))
      | _ => throw .indexError
    else if inferred.any (· = some .listT) then
      throw (.unsupportedFunctionException "startswith<List>")
    else
      throw (.argumentTypeException "startswith")
  else if key = "substring" then do
    let argsSql ← visitAList tAlias args
    match args with
    | [] => throw .indexError
    | a0 :: _ =>
      let inferred := inferType a0
      if inferred = some .stringT || inferred = Option.none then
        match argsSql with
        | [s0, s1] => pure (some ("substr(" ++ s0.fmt ++ ", " ++ s1.fmt ++ " + 1)"))
        | [s0, s1, s2] =>
          pure (some ("substr(" ++ s0.fmt ++ ", " ++ s1.fmt ++ " + 1, " ++ s2.fmt ++ ")"))
        | _ => throw (.argumentTypeException "substring")
      else if inferred = some .listT then
        match argsSql with
        | [s0, s1] => pure (some ("slice(" ++ s0.fmt ++ ", " ++ s1.fmt ++ ")"))
        | [s0, s1, s2] =>
          pure (some ("slice(" ++ s0.fmt ++ ", " ++ s1.fmt ++ ", " ++ s2.fmt ++ ")"))
        | _ => throw (.argumentTypeException "substring")
      else
        throw (.argumentTypeException "substring")
  else if key = "tolower" then
    match args with
    | [arg] => do pure (some ("lower(" ++ (← visitA tAlias arg).fmt ++ ")"))
    | _ => throw .typeError
  else if key = "toupper" then
    match args with
    | [arg] => do pure (some ("upper(" ++ (← visitA tAlias arg).fmt ++ ")"))
    | _ => throw .typeError
  else if key = "trim" then
    match args with
    | [arg] => do pure (some ("trim(" ++ (← visitA tAlias arg).fmt ++ ")"))
    | _ => throw .typeError
  else if key = "year" then
    match args with
    | [arg] => do pure (some ("year(" ++ (← visitA tAlias arg).fmt ++ ")"))
    | _ => throw .typeError
  else if key = "month" then
    match args with
    | [arg] => do pure (some ("month(" ++ (← visitA tAlias arg).fmt ++ ")"))
    | _ => throw .typeError
  else if key = "day" then
    match args with
    | [arg] => do pure (some ("day(" ++ (← visitA tAlias arg).fmt ++ ")"))
    | _ => throw .typeError
  else if key = "hour" then
    match args with
    | [arg] => do pure (some ("hour(" ++ (← visitA tAlias arg).fmt ++ ")"))
    | _ => throw .typeError
  else if key = "minute" then
    match args with
    | [arg] => do pure (some ("minute(" ++ (← visitA tAlias arg).fmt ++ ")"))
    | _ => throw .typeError
  else if key = "date" then
    match args with
    | [arg] => do pure (some ("date_trunc(day, " ++ (← visitA tAlias arg).fmt ++ ")"))
    | _ => throw .typeError
  else if key = "now" then
    match args with
    | [] => pure (some "CURRENT_TIMESTAMP")
    | _ => throw .typeError
  else if key = "round" then
    match args with
    | [arg] => do pure (some ("round(" ++ (← visitA tAlias arg).fmt ++ ")"))
    | _ => throw .typeError
  else if key = "floor" then
    match args with
    | [arg] => do pure (some ("floor(" ++ (← visitA tAlias arg).fmt ++ ")"))
    | _ => throw .typeError
  else if key = "ceiling" then
    match args with
    | [arg] => do pure (some ("ceiling(" ++ (← visitA tAlias arg).fmt ++ ")"))
    | _ => throw .typeError
  else if key = "hassubset" then do
    let argsSql ← visitAList tAlias args
    match argsSql with
    | a :: b :: _ =>
      pure (some ("cardinality(array_intersect(" ++ a.fmt ++ ", " ++ b.fmt
        ++ ")) = cardinality(" ++ b.fmt ++ ")"))
    | _ => throw .indexError
  else
    pure Option.none
termination_by _ _ args => sizeOf args + 2
decreasing_by all_goals (simp_wf <;> omega)

end

/-! ## The `In`-comparison invariant predicate (for the parser invariant) -/

/-- Is this node an `ast.List` literal? -/
def isListNode : Node → Bool
| .list _ => true
| _ => false

mutual

/-- Every `Compare` with comparator `In` anywhere in the tree has a `List`
literal as its right operand. -/
def inListInv : Node → Bool
| .identifier _ _ => true
| .attribute owner _ => inListInv owner
| .null => true
| .integer _ => true
| .float _ => true
| .boolean _ => true
| .string _ => true
| .geography _ => true
| .date _ => true
| .time _ => true
| .dateTime _ => true
| .duration _ => true
| .guid _ => true
| .list vs => inListInvList vs
| .binOp _ l r => inListInv l && inListInv r
| .compare c l r =>
  (if c = .inOp then isListNode r else true) && inListInv l && inListInv r
| .boolOp _ l r => inListInv l && inListInv r
| .unaryOp _ x => inListInv x
| .namedParam _ _ p => inListInv p
| .call _ _ args => inListInvList args
| .lambda' _ _ body => inListInv body
| .collectionLambda owner _ lam =>
  inListInv owner &&
    (match lam with
     | some l => inListInv l
     | .none => true)

def inListInvList : List Node → Bool
| [] => true
| n :: ns => inListInv n && inListInvList ns

end

/-- Invariant for the optional lambda slot of a `CollectionLambda`. -/
def lamInvOpt : Option Node → Bool
| some l => inListInv l
| none => true

/-! ## Shape lemmas for the DURATION lexer rule vs `DURATION_PATTERN`

The lexer's DURATION rule admits only sign, days and time components; these
lemmas characterize the shape of the stored (uppercased) value and evaluate
`DURATION_PATTERN` on values of that shape. -/

theorem toUpper_of_isDigit {c : Char} (h : c.isDigit = true) : c.toUpper = c := by
  simp only [Char.isDigit, Bool.and_eq_true, decide_eq_true_eq] at h
  obtain ⟨h1, h2⟩ := h
  simp only [UInt32.le_def, BitVec.le_def] at h1 h2
  have e48 : ((48 : UInt32).toBitVec.toNat) = 48 := rfl
  have e57 : ((57 : UInt32).toBitVec.toNat) = 57 := rfl
  rw [e48] at h1
  rw [e57] at h2
  simp only [Char.toUpper, Char.toNat]
  rw [if_neg]
  rintro ⟨ha, _⟩
  simp only [UInt32.toNat] at *
  omega

theorem map_toUpper_of_all_digits {ds : List Char} (h : ds.all Char.isDigit = true) :
    ds.map Char.toUpper = ds := by
  induction ds with
  | nil => rfl
  | cons x xs ih =>
    simp only [List.all_cons, Bool.and_eq_true] at h
    simp [toUpper_of_isDigit h.1, ih h.2]

theorem all_takeWhile_self (p : Char → Bool) (l : List Char) :
    (l.takeWhile p).all p = true := by
  induction l with
  | nil => rfl
  | cons x xs ih =>
    by_cases h : p x = true
    · simp [List.takeWhile, h, ih]
    · simp only [Bool.not_eq_true] at h
      simp [List.takeWhile, h]

theorem takeWhile_append_stop (p : Char → Bool) (xs : List Char) (y : Char) (r : List Char)
    (hxs : xs.all p = true) (hy : p y = false) :
    (xs ++ y :: r).takeWhile p = xs ∧ (xs ++ y :: r).dropWhile p = y :: r := by
  induction xs with
  | nil => simp [List.takeWhile, List.dropWhile, hy]
  | cons x xs ih =>
    simp only [List.all_cons, Bool.and_eq_true] at hxs
    have := ih hxs.2
    simp [List.takeWhile, List.dropWhile, hxs.1, this.1, this.2]

theorem matchNumUnit_not_digit (u c : Char) (r : List Char) (h : c.isDigit = false) :
    matchNumUnit u (c :: r) = Option.none := by
  simp [matchNumUnit, List.takeWhile, h]

theorem matchNumUnit_digits_stop (u : Char) {ds : List Char} (c : Char) (r : List Char)
    (hne : ds ≠ []) (hds : ds.all Char.isDigit = true) (hc : c.isDigit = false) :
    matchNumUnit u (ds ++ c :: r) = if c = u then some (ds, r) else Option.none := by
  obtain ⟨ht, hd⟩ := takeWhile_append_stop (fun c => c.isDigit) ds c r hds hc
  simp only [matchNumUnit, ht, hd]
  obtain ⟨d, ds', rfl⟩ := List.exists_cons_of_ne_nil hne
  simp only [List.isEmpty_cons, Bool.false_eq_true, if_false]

theorem matchSecondsGroup_not_digit (c : Char) (r : List Char) (h : c.isDigit = false) :
    matchSecondsGroup (c :: r) = Option.none := by
  simp [matchSecondsGroup, List.takeWhile, h]

theorem matchSecondsGroup_plain {ds : List Char} (r : List Char)
    (hne : ds ≠ []) (hds : ds.all Char.isDigit = true) :
    matchSecondsGroup (ds ++ 'S' :: r) = some (ds, r) := by
  obtain ⟨ht, hd⟩ := takeWhile_append_stop (fun c => c.isDigit) ds 'S' r hds (by decide)
  simp only [matchSecondsGroup, ht, hd]
  obtain ⟨d, ds', rfl⟩ := List.exists_cons_of_ne_nil hne
  simp only [List.isEmpty_cons, Bool.false_eq_true, if_false]

theorem matchSecondsGroup_frac {ds fs : List Char} (r : List Char)
    (hdne : ds ≠ []) (hds : ds.all Char.isDigit = true)
    (hfne : fs ≠ []) (hfs : fs.all Char.isDigit = true) :
    matchSecondsGroup (ds ++ '.' :: (fs ++ 'S' :: r)) = some (ds ++ '.' :: fs, r) := by
  obtain ⟨ht, hd⟩ :=
    takeWhile_append_stop (fun c => c.isDigit) ds '.' (fs ++ 'S' :: r) hds (by decide)
  obtain ⟨ht2, hd2⟩ := takeWhile_append_stop (fun c => c.isDigit) fs 'S' r hfs (by decide)
  simp only [matchSecondsGroup, ht, hd, ht2, hd2]
  obtain ⟨d, ds', rfl⟩ := List.exists_cons_of_ne_nil hdne
  obtain ⟨f, fs', rfl⟩ := List.exists_cons_of_ne_nil hfne
  simp only [List.isEmpty_cons, Bool.false_eq_true, if_false]

theorem matchNumUnit_none_on_tail (u : Char) (tail : List Char)
    (htail : tail = []
      ∨ (∃ ds c r, ds.all Char.isDigit = true ∧ c.isDigit = false ∧ c ≠ u
          ∧ tail = ds ++ c :: r)) :
    matchNumUnit u tail = Option.none := by
  rcases htail with rfl | ⟨ds, c, r, hds, hc, hcu, rfl⟩
  · rfl
  · cases ds with
    | nil => simpa using matchNumUnit_not_digit u c r hc
    | cons d ds' =>
      rw [matchNumUnit_digits_stop u c r (by simp) hds hc, if_neg hcu]

theorem headBlock_nil (cset : List Char) : HeadBlock cset [] := Or.inl rfl

theorem headBlock_weaken {cset : List Char} (c : Char) {tail : List Char}
    (h : HeadBlock cset tail) : HeadBlock (c :: cset) tail := by
  rcases h with rfl | ⟨ds, c', r, h1, h2, h3, rfl⟩
  · exact Or.inl rfl
  · exact Or.inr ⟨ds, c', r, h1, h2, by simp [h3], rfl⟩

theorem headBlock_append {u : Char} (hu : u.isDigit = false) {a : List Char}
    {cset : List Char} {b : List Char}
    (ha : a = [] ∨ NumUnitCanon u a) (hb : HeadBlock cset b) :
    HeadBlock (u :: cset) (a ++ b) := by
  rcases ha with rfl | ⟨ds, hne, hds, rfl⟩
  · simpa using headBlock_weaken u hb
  · exact Or.inr ⟨ds, u, b, hds, hu, by simp, by simp⟩

theorem headBlock_secs {secs : List Char} (hs : secs = [] ∨ SecCanon secs) :
    HeadBlock ['S', '.'] secs := by
  rcases hs with rfl | ⟨ds, hne, hds, rfl⟩ | ⟨ds, fs, hdne, hfne, hds, hfs, rfl⟩
  · exact headBlock_nil _
  · exact Or.inr ⟨ds, 'S', [], hds, by decide, by decide, by simp⟩
  · exact Or.inr ⟨ds, '.', fs ++ ['S'], hds, by decide, by decide, rfl⟩

theorem headBlock_time {time : List Char} (ht : time = [] ∨ TimeCanon time) :
    HeadBlock ['T'] time := by
  rcases ht with rfl | ⟨hrs, mins, secs, _, _, _, rfl⟩
  · exact headBlock_nil _
  · exact Or.inr ⟨[], 'T', hrs ++ (mins ++ secs), rfl, by decide, by decide, rfl⟩

theorem matchNumUnit_none_of_headBlock {u : Char} {cset tail : List Char}
    (h : HeadBlock cset tail) (hu : ∀ c ∈ cset, c ≠ u) :
    matchNumUnit u tail = Option.none := by
  rcases h with rfl | ⟨ds, c, r, h1, h2, h3, rfl⟩
  · rfl
  · exact matchNumUnit_none_on_tail u _ (Or.inr ⟨ds, c, r, h1, h2, hu c h3, rfl⟩)

theorem stepNum_canon {u : Char} (hu : u.isDigit = false) {a : List Char}
    (ha : a = [] ∨ NumUnitCanon u a) {cset b : List Char}
    (hb : HeadBlock cset b) (hnu : ∀ c ∈ cset, c ≠ u) :
    ∃ v, stepNum u (a ++ b) = (v, b) := by
  rcases ha with rfl | ⟨ds, hne, hds, rfl⟩
  · exact ⟨Option.none, by simp [stepNum, matchNumUnit_none_of_headBlock hb hnu]⟩
  · refine ⟨some (String.mk ds), ?_⟩
    have heq : (ds ++ [u]) ++ b = ds ++ u :: b := by simp
    rw [heq]
    simp [stepNum, matchNumUnit_digits_stop u u b hne hds hu]

theorem stepSec_canon {a : List Char} (ha : a = [] ∨ SecCanon a) :
    ∃ v, stepSec a = (v, ([] : List Char)) := by
  rcases ha with rfl | ⟨ds, hne, hds, rfl⟩ | ⟨ds, fs, hdne, hfne, hds, hfs, rfl⟩
  · exact ⟨Option.none, rfl⟩
  · exact ⟨some (String.mk ds), by simp [stepSec, matchSecondsGroup_plain [] hne hds]⟩
  · exact ⟨some (String.mk (ds ++ '.' :: fs)),
      by simp [stepSec, matchSecondsGroup_frac [] hdne hds hfne hfs]⟩

theorem unpackTime_canon (hrs mins secs : List Char)
    (hh : hrs = [] ∨ NumUnitCanon 'H' hrs)
    (hm : mins = [] ∨ NumUnitCanon 'M' mins)
    (hsec : secs = [] ∨ SecCanon secs) :
    ∃ t, unpackTime (hrs ++ (mins ++ secs)) = some t := by
  have hbS : HeadBlock ['S', '.'] secs := headBlock_secs hsec
  have hbMS : HeadBlock ['M', 'S', '.'] (mins ++ secs) :=
    headBlock_append (by decide) hm hbS
  obtain ⟨h, eH⟩ := stepNum_canon (by decide) hh hbMS (by decide)
  obtain ⟨m, eM⟩ := stepNum_canon (by decide) hm hbS (by decide)
  obtain ⟨s, eS⟩ := stepSec_canon hsec
  exact ⟨(h, m, s), by simp [unpackTime, eH, eM, eS]⟩

theorem unpackBody_canon (sign : Option String) (days time : List Char)
    (hdays : days = [] ∨ NumUnitCanon 'D' days)
    (htime : time = [] ∨ TimeCanon time) :
    ∃ g, unpackBody sign (days ++ time) = some g
      ∧ g.years = Option.none ∧ g.months = Option.none := by
  have hbT : HeadBlock ['T'] time := headBlock_time htime
  have hbDT : HeadBlock ['D', 'T'] (days ++ time) :=
    headBlock_append (by decide) hdays hbT
  have eY : stepNum 'Y' (days ++ time) = (Option.none, days ++ time) := by
    simp [stepNum, matchNumUnit_none_of_headBlock (u := 'Y') hbDT (by decide)]
  have eM : stepNum 'M' (days ++ time) = (Option.none, days ++ time) := by
    simp [stepNum, matchNumUnit_none_of_headBlock (u := 'M') hbDT (by decide)]
  obtain ⟨d, eD⟩ := stepNum_canon (by decide) hdays hbT (by decide)
  rcases htime with rfl | ⟨hrs, mins, secs, hh, hm, hsec, rfl⟩
  · refine ⟨⟨sign, Option.none, Option.none, d, Option.none, Option.none, Option.none⟩,
      ?_, rfl, rfl⟩
    simp only [List.append_nil] at eY eM eD
    simp [unpackBody, eY, eM, eD]
  · obtain ⟨t, eT⟩ := unpackTime_canon hrs mins secs hh hm hsec
    obtain ⟨h, m, s⟩ := t
    refine ⟨⟨sign, Option.none, Option.none, d, h, m, s⟩, ?_, rfl, rfl⟩
    simp [unpackBody, eY, eM, eD, eT]

theorem durationUnpack_canon (sign : List Char)
    (hsign : sign = [] ∨ sign = ['+'] ∨ sign = ['-'])
    (days time : List Char)
    (hdays : days = [] ∨ NumUnitCanon 'D' days)
    (htime : time = [] ∨ TimeCanon time) :
    ∃ g, durationUnpack (String.mk (sign ++ 'P' :: (days ++ time))) = some g
      ∧ g.years = Option.none ∧ g.months = Option.none := by
  rcases hsign with rfl | rfl | rfl
  · obtain ⟨g, hg, hy, hm⟩ := unpackBody_canon Option.none days time hdays htime
    exact ⟨g, by simp [durationUnpack, hg], hy, hm⟩
  · obtain ⟨g, hg, hy, hm⟩ := unpackBody_canon (some "+") days time hdays htime
    exact ⟨g, by simp [durationUnpack, hg], hy, hm⟩
  · obtain ⟨g, hg, hy, hm⟩ := unpackBody_canon (some "-") days time hdays htime
    exact ⟨g, by simp [durationUnpack, hg], hy, hm⟩

theorem matchNumUnitCI_shape {u : Char} {cs d r : List Char}
    (h : matchNumUnitCI u cs = some (d, r)) :
    NumUnitCanon u (d.map Char.toUpper) := by
  simp only [matchNumUnitCI] at h
  split at h
  · simp at h
  · rename_i hne
    split at h
    · rename_i c rest' heq
      split at h
      · rename_i hcu
        simp only [Option.some.injEq, Prod.mk.injEq] at h
        obtain ⟨hd, hr⟩ := h
        have hall : (cs.takeWhile (·.isDigit)).all Char.isDigit = true :=
          all_takeWhile_self _ cs
        refine ⟨cs.takeWhile (·.isDigit), ?_, hall, ?_⟩
        · intro hnil
          exact hne (by simp [hnil])
        · subst hd
          simp [map_toUpper_of_all_digits hall, hcu]
      · simp at h
    · simp at h

theorem matchSecondsUnitCI_shape {cs d r : List Char}
    (h : matchSecondsUnitCI cs = some (d, r)) :
    SecCanon (d.map Char.toUpper) := by
  simp only [matchSecondsUnitCI] at h
  split at h
  · simp at h
  · rename_i hne
    have hall : (cs.takeWhile (·.isDigit)).all Char.isDigit = true :=
      all_takeWhile_self _ cs
    have hnonnil : cs.takeWhile (·.isDigit) ≠ [] := by
      intro hnil
      exact hne (by simp [hnil])
    split at h
    · rename_i rest' heq
      split at h
      · simp at h
      · rename_i hfne
        have hfall : (rest'.takeWhile (·.isDigit)).all Char.isDigit = true :=
          all_takeWhile_self _ rest'
        have hfnonnil : rest'.takeWhile (·.isDigit) ≠ [] := by
          intro hnil
          exact hfne (by simp [hnil])
        split at h
        · rename_i c r' heq2
          split at h
          · rename_i hcu
            simp only [Option.some.injEq, Prod.mk.injEq] at h
            obtain ⟨hd, hr⟩ := h
            refine Or.inr ⟨cs.takeWhile (·.isDigit), rest'.takeWhile (·.isDigit),
              hnonnil, hfnonnil, hall, hfall, ?_⟩
            subst hd
            simp [map_toUpper_of_all_digits hall, map_toUpper_of_all_digits hfall, hcu]
          · simp at h
        · simp at h
    · rename_i c rest' heq hnotdot
      split at h
      · rename_i hcu
        simp only [Option.some.injEq, Prod.mk.injEq] at h
        obtain ⟨hd, hr⟩ := h
        refine Or.inl ⟨cs.takeWhile (·.isDigit), hnonnil, hall, ?_⟩
        subst hd
        simp [map_toUpper_of_all_digits hall, hcu]
      · simp at h
    · simp at h

theorem stepCI_shape (u : Char) (cs : List Char) :
    (stepCI u cs).1 = [] ∨ NumUnitCanon u ((stepCI u cs).1.map Char.toUpper) := by
  rcases hm : matchNumUnitCI u cs with _ | ⟨d, r⟩
  · left
    simp [stepCI, hm]
  · right
    have := matchNumUnitCI_shape hm
    simpa [stepCI, hm] using this

theorem stepSecCI_shape (cs : List Char) :
    (stepSecCI cs).1 = [] ∨ SecCanon ((stepSecCI cs).1.map Char.toUpper) := by
  rcases hm : matchSecondsUnitCI cs with _ | ⟨d, r⟩
  · left
    simp [stepSecCI, hm]
  · right
    have := matchSecondsUnitCI_shape hm
    simpa [stepSecCI, hm] using this

theorem matchDurationTime_shape (cs : List Char) :
    (matchDurationTime cs).1 = [] ∨ TimeCanon ((matchDurationTime cs).1.map Char.toUpper) := by
  match cs with
  | [] => exact Or.inl rfl
  | c :: r =>
    by_cases hT : c.toUpper = 'T'
    · right
      rcases e1 : stepCI 'H' r with ⟨hours, r1⟩
      rcases e2 : stepCI 'M' r1 with ⟨minutes, r2⟩
      rcases e3 : stepSecCI r2 with ⟨seconds, r3⟩
      have s1 := stepCI_shape 'H' r
      have s2 := stepCI_shape 'M' r1
      have s3 := stepSecCI_shape r2
      rw [e1] at s1
      rw [e2] at s2
      rw [e3] at s3
      dsimp only at s1 s2 s3
      refine ⟨hours.map Char.toUpper, minutes.map Char.toUpper, seconds.map Char.toUpper,
        s1.imp (fun h => by simp [h]) id,
        s2.imp (fun h => by simp [h]) id,
        s3.imp (fun h => by simp [h]) id, ?_⟩
      simp [matchDurationTime, hT, e1, e2, e3, List.append_assoc]
    · left
      simp [matchDurationTime, hT]

theorem matchDurationBody_shape {cs body rest : List Char}
    (h : matchDurationBody cs = some (body, rest)) :
    ∃ sign days time,
      (sign = [] ∨ sign = ['+'] ∨ sign = ['-'])
      ∧ (days = [] ∨ NumUnitCanon 'D' days)
      ∧ (time = [] ∨ TimeCanon time)
      ∧ body.map Char.toUpper = sign ++ 'P' :: (days ++ time) := by
  unfold matchDurationBody at h
  rcases cs with _ | ⟨c0, r0⟩
  · simp at h
  by_cases hplus : c0 = '+'
  · subst hplus
    rcases r0 with _ | ⟨c1, r1⟩
    · simp at h
    by_cases hP : c1.toUpper = 'P'
    · rcases eD : stepCI 'D' r1 with ⟨days0, cs5⟩
      rcases eT : matchDurationTime cs5 with ⟨time0, cs6⟩
      simp [hP, eD, eT] at h
      obtain ⟨hb, -⟩ := h
      subst hb
      have sD := stepCI_shape 'D' r1
      have sT := matchDurationTime_shape cs5
      rw [eD] at sD
      rw [eT] at sT
      dsimp only at sD sT
      refine ⟨['+'], days0.map Char.toUpper, time0.map Char.toUpper,
        Or.inr (Or.inl rfl),
        sD.imp (fun hh => by simp [hh]) id,
        sT.imp (fun hh => by simp [hh]) id, ?_⟩
      simp [hP]
    · simp [hP] at h
  by_cases hminus : c0 = '-'
  · subst hminus
    rcases r0 with _ | ⟨c1, r1⟩
    · simp at h
    by_cases hP : c1.toUpper = 'P'
    · rcases eD : stepCI 'D' r1 with ⟨days0, cs5⟩
      rcases eT : matchDurationTime cs5 with ⟨time0, cs6⟩
      simp [hP, eD, eT] at h
      obtain ⟨hb, -⟩ := h
      subst hb
      have sD := stepCI_shape 'D' r1
      have sT := matchDurationTime_shape cs5
      rw [eD] at sD
      rw [eT] at sT
      dsimp only at sD sT
      refine ⟨['-'], days0.map Char.toUpper, time0.map Char.toUpper,
        Or.inr (Or.inr rfl),
        sD.imp (fun hh => by simp [hh]) id,
        sT.imp (fun hh => by simp [hh]) id, ?_⟩
      simp [hP]
    · simp [hP] at h
  -- no sign: the required P is the first character
  by_cases hP : c0.toUpper = 'P'
  · rcases eD : stepCI 'D' r0 with ⟨days0, cs5⟩
    rcases eT : matchDurationTime cs5 with ⟨time0, cs6⟩
    simp [hplus, hminus, hP, eD, eT] at h
    obtain ⟨hb, -⟩ := h
    subst hb
    have sD := stepCI_shape 'D' r0
    have sT := matchDurationTime_shape cs5
    rw [eD] at sD
    rw [eT] at sT
    dsimp only at sD sT
    refine ⟨[], days0.map Char.toUpper, time0.map Char.toUpper,
      Or.inl rfl,
      sD.imp (fun hh => by simp [hh]) id,
      sT.imp (fun hh => by simp [hh]) id, ?_⟩
    simp [hP]
  · simp [hplus, hminus, hP] at h

theorem matchDuration_shape {cs : List Char} {v : String} {rest : List Char}
    (h : matchDuration cs = some (v, rest)) :
    ∃ sign days time,
      (sign = [] ∨ sign = ['+'] ∨ sign = ['-'])
      ∧ (days = [] ∨ NumUnitCanon 'D' days)
      ∧ (time = [] ∨ TimeCanon time)
      ∧ v.data = sign ++ 'P' :: (days ++ time) := by
  unfold matchDuration at h
  rcases h1 : matchCI "duration".data cs with _ | cs1 <;> rw [h1] at h
  · simp at h
  rcases cs1 with _ | ⟨c1, cs1⟩
  · simp at h
  by_cases hq : c1 = '\''
  · subst hq
    rcases h2 : matchDurationBody cs1 with _ | ⟨body, cs2⟩
    · simp [h2] at h
    simp [h2] at h
    rcases cs2 with _ | ⟨c2, cs2⟩
    · simp at h
    by_cases hq2 : c2 = '\''
    · subst hq2
      simp at h
      obtain ⟨hv, -⟩ := h
      obtain ⟨sign, days, time, hs, hd, ht, hb⟩ := matchDurationBody_shape h2
      subst hv
      exact ⟨sign, days, time, hs, hd, ht, hb⟩
    · simp [hq2] at h
  · simp [hq] at h

/-! ## The parser preserves the `In`-comparison invariant

Every node built by a parser reduction keeps the invariant: the grammar only
reduces `common_expr IN list_expr`, and `list_expr` always builds an
`ast.List`. -/

theorem inListInv_collectionLambda (o : Node) (c : CollOp) (l : Option Node) :
    inListInv (.collectionLambda o c l) = (inListInv o && lamInvOpt l) := by
  cases l <;> rfl

theorem inListInvList_append (a b : List Node) :
    inListInvList (a ++ b) = (inListInvList a && inListInvList b) := by
  induction a with
  | nil => simp [inListInvList]
  | cons x xs ih => simp [inListInvList, ih, Bool.and_assoc]

theorem inListInv_foldl_attr (l : List String) (b : Node) (hb : inListInv b = true) :
    inListInv (l.foldl (fun acc i => Node.attribute acc i) b) = true := by
  induction l generalizing b with
  | nil => simpa using hb
  | cons x xs ih => exact ih _ (by simpa [inListInv] using hb)

theorem reverseAttributes_inv (p0 p1 n : Node) (h : reverseAttributes p0 p1 = .ok n) :
    inListInv n = true := by
  unfold reverseAttributes at h
  split at h
  · -- p0 an identifier
    rcases hA : explodeAttr p1 with e | attrPart <;> simp [hA] at h
    split at h
    · simp at h
    · split at h
      · simp at h
      · simp at h
        subst h
        simp only [inListInv]
        exact inListInv_foldl_attr _ _ (by simp [inListInv])
  · -- p0 an attribute chain
    rename_i owner attr
    rcases hO : explodeAttr (Node.attribute owner attr) with e | ownerPart <;> simp [hO] at h
    rcases hA : explodeAttr p1 with e | attrPart <;> simp [hA] at h
    split at h
    · simp at h
    · split at h
      · simp at h
      · simp at h
        subst h
        simp only [inListInv]
        exact inListInv_foldl_attr _ _ (by simp [inListInv])
  · simp at h

theorem combineSegment_inv (nm : String) (p1 n : Node) (hp : inListInv p1 = true)
    (h : combineSegment nm p1 = .ok n) : inListInv n = true := by
  unfold combineSegment at h
  split at h
  · exact reverseAttributes_inv _ _ _ h
  · rename_i owner op lam
    split at h
    · rename_i ownerName l
      simp at h
      subst h
      rw [inListInv_collectionLambda] at hp ⊢
      simp only [Bool.and_eq_true] at hp ⊢
      exact ⟨by simp [inListInv], hp.2⟩
    · simp at h
  · rename_i nm2
    simp at h
    subst h
    simp [inListInv]
  · simp at h

theorem functionCall_inv (nm : String) (ns : List String) (args : List Node) (n : Node)
    (hargs : inListInvList args = true) (h : functionCall nm ns args = .ok n) :
    inListInv n = true := by
  unfold functionCall at h
  split at h
  · simp at h
  · split at h
    · simp at h
    · simp at h
      subst h
      simpa [inListInv] using hargs
  · split at h
    · simp at h
    · simp at h
      subst h
      simpa [inListInv] using hargs

theorem binOpInfo_inv (t : Token) (lvl : Nat) (build : Node → Node → Node)
    (h : binOpInfo t = some (lvl, build)) (l r : Node)
    (hl : inListInv l = true) (hr : inListInv r = true) :
    inListInv (build l r) = true := by
  cases t <;> simp only [binOpInfo, Option.some.injEq, Prod.mk.injEq,
    reduceCtorEq] at h <;>
  · obtain ⟨-, hb⟩ := h
    subst hb
    simp [inListInv, hl, hr]

theorem parser_inv (fuel : Nat) :
    (∀ minPrec ts n r, parseCommon fuel minPrec ts = .ok (n, r) → inListInv n = true)
    ∧ (∀ ts n r, parseNud fuel ts = .ok (n, r) → inListInv n = true)
    ∧ (∀ ts n r, parseParen fuel ts = .ok (n, r) → inListInv n = true)
    ∧ (∀ acc ts n r, inListInvList acc = true → parseListItems fuel acc ts = .ok (n, r) →
        inListInv n = true ∧ isListNode n = true)
    ∧ (∀ nm ts n r, parseCallArgs fuel nm ts = .ok (n, r) → inListInv n = true)
    ∧ (∀ nm ts n r, parsePathSeg fuel nm ts = .ok (n, r) → inListInv n = true)
    ∧ (∀ nm ts n r, parseMember fuel nm ts = .ok (n, r) → inListInv n = true)
    ∧ (∀ ts p r, parseAnyTail fuel ts = .ok (p, r) → lamInvOpt p.2 = true)
    ∧ (∀ ts p r, parseAllTail fuel ts = .ok (p, r) → lamInvOpt p.2 = true)
    ∧ (∀ ts n r, parseLambda fuel ts = .ok (n, r) → inListInv n = true)
    ∧ (∀ minPrec lhs ts n r, inListInv lhs = true → parseOps fuel minPrec lhs ts = .ok (n, r) →
        inListInv n = true)
    ∧ (∀ ts n r, parseListExpr fuel ts = .ok (n, r) → inListInv n = true ∧ isListNode n = true) := by
  induction fuel with
  | zero =>
    refine ⟨?_, ?_, ?_, ?_, ?_, ?_, ?_, ?_, ?_, ?_, ?_, ?_⟩ <;> intros <;>
      simp_all [parseCommon, parseNud, parseParen, parseListItems, parseCallArgs,
        parsePathSeg, parseMember, parseAnyTail, parseAllTail, parseLambda,
        parseOps, parseListExpr]
  | succ fuel ih =>
    obtain ⟨ihPC, ihPN, ihPP, ihPLI, ihPCA, ihPPS, ihPM, ihPAT, ihPAllT, ihPL,
      ihPO, ihPLE⟩ := ih
    refine ⟨?_, ?_, ?_, ?_, ?_, ?_, ?_, ?_, ?_, ?_, ?_, ?_⟩
    · -- parseCommon
      intro minPrec ts n r h
      simp only [parseCommon] at h
      rcases hn : parseNud fuel ts with e | ⟨lhs, ts1⟩ <;> rw [hn] at h <;> simp at h
      exact ihPO minPrec lhs ts1 n r (ihPN ts lhs ts1 hn) h
    · -- parseNud
      intro ts n r h
      rcases ts with _ | ⟨t, ts⟩
      · simp [parseNud] at h
      simp only [parseNud] at h
      split at h
      · exact ihPP _ _ _ h
      · rcases hc : parseCommon fuel 7 (skipBWS ts) with e | ⟨operand, r1⟩ <;>
          rw [hc] at h <;> simp at h
        obtain ⟨rfl, rfl⟩ := h
        simpa [inListInv] using ihPC _ _ _ _ hc
      · rcases hc : parseCommon fuel 7 ts with e | ⟨operand, r1⟩ <;>
          rw [hc] at h <;> simp at h
        obtain ⟨rfl, rfl⟩ := h
        simpa [inListInv] using ihPC _ _ _ _ hc
      all_goals (try (simp at h; obtain ⟨rfl, rfl⟩ := h; simp [inListInv]; done))
      · -- odataIdentifier
        split at h
        · exact ihPCA _ _ _ _ h
        · exact ihPPS _ _ _ _ h
        · simp at h
          obtain ⟨rfl, rfl⟩ := h
          simp [inListInv]
      · simp at h
    · -- parseParen
      intro ts n r h
      simp only [parseParen] at h
      rcases hc : parseCommon fuel 0 (skipBWS ts) with e | ⟨e1, ts1⟩ <;>
        rw [hc] at h <;> simp at h
      split at h
      · simp at h
        obtain ⟨rfl, rfl⟩ := h
        exact ihPC _ _ _ _ hc
      · rename_i tsx r1 heq1
        split at h
        · simp at h
          obtain ⟨rfl, rfl⟩ := h
          simp [inListInv, inListInvList]
          exact ihPC _ _ _ _ hc
        · rcases hc2 : parseCommon fuel 0 (skipBWS r1) with e | ⟨e2, r3⟩ <;>
            rw [hc2] at h <;> simp at h
          exact (ihPLI [e1, e2] _ n r
            (by simp [inListInvList, ihPC _ _ _ _ hc, ihPC _ _ _ _ hc2]) h).1
      · simp at h
      · simp at h
    · -- parseListItems
      intro acc ts n r hacc h
      simp only [parseListItems] at h
      split at h
      · simp at h
        obtain ⟨rfl, rfl⟩ := h
        exact ⟨by simpa [inListInv] using hacc, rfl⟩
      · rename_i r1 heq
        rcases hc : parseCommon fuel 0 (skipBWS r1) with e | ⟨e, r2⟩ <;>
          rw [hc] at h <;> simp at h
        exact ihPLI (acc ++ [e]) _ n r
          (by simp [inListInvList_append, hacc, inListInvList, ihPC _ _ _ _ hc]) h
      · simp at h
      · simp at h
    · -- parseCallArgs
      intro nm ts n r h
      simp only [parseCallArgs] at h
      split at h
      · rcases hf : functionCall nm [] [] with e | node <;> rw [hf] at h <;> simp at h
        obtain ⟨rfl, rfl⟩ := h
        exact functionCall_inv _ _ _ _ (by simp [inListInvList]) hf
      · rcases hc : parseCommon fuel 0 (skipBWS ts) with e | ⟨e1, ts1⟩ <;>
          rw [hc] at h <;> simp at h
        split at h
        · rcases hf : functionCall nm [] [e1] with e | node <;> rw [hf] at h <;> simp at h
          obtain ⟨rfl, rfl⟩ := h
          exact functionCall_inv _ _ _ _
            (by simp [inListInvList, ihPC _ _ _ _ hc]) hf
        · rename_i tsy r1c heq1c
          split at h
          · rcases hf : functionCall nm [] [e1] with e | node <;> rw [hf] at h <;> simp at h
            obtain ⟨rfl, rfl⟩ := h
            exact functionCall_inv _ _ _ _
              (by simp [inListInvList, ihPC _ _ _ _ hc]) hf
          · rcases hc2 : parseCommon fuel 0 (skipBWS r1c) with e | ⟨e2, r3⟩ <;>
              rw [hc2] at h <;> simp at h
            rcases hli : parseListItems fuel [e1, e2] r3 with e | ⟨lst, r4⟩ <;>
              rw [hli] at h <;> simp at h
            have hlst := ihPLI [e1, e2] _ _ _
              (by simp [inListInvList, ihPC _ _ _ _ hc, ihPC _ _ _ _ hc2]) hli
            split at h
            · rename_i vs
              rcases hf : functionCall nm [] vs with e | node <;> rw [hf] at h <;> simp at h
              obtain ⟨rfl, rfl⟩ := h
              exact functionCall_inv _ _ _ _ (by simpa [inListInv] using hlst.1) hf
            · simp at h
        · simp at h
        · simp at h
    · -- parsePathSeg
      intro nm ts n r h
      simp only [parsePathSeg] at h
      split at h
      · rcases ha : parseAnyTail fuel _ with e | ⟨⟨op, lam⟩, r1⟩ <;>
          rw [ha] at h <;> simp at h
        obtain ⟨rfl, rfl⟩ := h
        rw [inListInv_collectionLambda]
        simp [inListInv]
        simpa using ihPAT _ _ _ ha
      · rcases ha : parseAllTail fuel _ with e | ⟨⟨op, lam⟩, r1⟩ <;>
          rw [ha] at h <;> simp at h
        obtain ⟨rfl, rfl⟩ := h
        rw [inListInv_collectionLambda]
        simp [inListInv]
        simpa using ihPAllT _ _ _ ha
      · rename_i nm2 r2
        rcases hm : parseMember fuel nm2 r2 with e | ⟨inner, r3⟩ <;>
          rw [hm] at h <;> simp at h
        rcases hcs : combineSegment nm inner with e | node <;> rw [hcs] at h <;> simp at h
        obtain ⟨rfl, rfl⟩ := h
        exact combineSegment_inv _ _ _ (ihPM _ _ _ _ hm) hcs
      · simp at h
      · simp at h
    · -- parseMember
      intro nm ts n r h
      simp only [parseMember] at h
      split at h
      · exact ihPPS _ _ _ _ h
      · simp at h
        obtain ⟨rfl, rfl⟩ := h
        simp [inListInv]
    · -- parseAnyTail
      intro ts p r h
      simp only [parseAnyTail] at h
      split at h
      · split at h
        · simp at h
          obtain ⟨rfl, rfl⟩ := h
          rfl
        · rcases hl : parseLambda fuel _ with e | ⟨lam, r2⟩ <;> rw [hl] at h <;> simp at h
          obtain ⟨rfl, rfl⟩ := h
          simpa [lamInvOpt] using ihPL _ _ _ hl
      · simp at h
      · simp at h
    · -- parseAllTail
      intro ts p r h
      simp only [parseAllTail] at h
      split at h
      · rcases hl : parseLambda fuel _ with e | ⟨lam, r2⟩ <;> rw [hl] at h <;> simp at h
        obtain ⟨rfl, rfl⟩ := h
        simpa [lamInvOpt] using ihPL _ _ _ hl
      · simp at h
      · simp at h
    · -- parseLambda
      intro ts n r h
      simp only [parseLambda] at h
      split at h
      · split at h
        · rcases hc : parseCommon fuel 0 _ with e | ⟨body, r3⟩ <;> rw [hc] at h <;> simp at h
          split at h
          · simp at h
            obtain ⟨rfl, rfl⟩ := h
            simpa [inListInv] using ihPC _ _ _ _ hc
          · simp at h
          · simp at h
        · simp at h
        · simp at h
      · simp at h
      · simp at h
    · -- parseOps
      intro minPrec lhs ts n r hlhs h
      simp only [parseOps] at h
      split at h
      · split at h
        · rcases hle : parseListExpr fuel _ with e | ⟨lst, r1⟩ <;> rw [hle] at h <;> simp at h
          have hl2 := ihPLE _ _ _ hle
          exact ihPO minPrec (.compare .inOp lhs lst) r1 n r
            (by simp [inListInv, hlhs, hl2.1, hl2.2]) h
        · simp at h
          obtain ⟨rfl, rfl⟩ := h
          exact hlhs
      · rename_i t rest hne
        split at h
        · rename_i lvl build hbo
          split at h
          · rcases hc : parseCommon fuel (lvl + 1) rest with e | ⟨rhs, r1⟩ <;>
              rw [hc] at h <;> simp at h
            exact ihPO minPrec (build lhs rhs) r1 n r
              (binOpInfo_inv t lvl build hbo lhs rhs hlhs (ihPC _ _ _ _ hc)) h
          · simp at h
            obtain ⟨rfl, rfl⟩ := h
            exact hlhs
        · simp at h
          obtain ⟨rfl, rfl⟩ := h
          exact hlhs
      · simp at h
        obtain ⟨rfl, rfl⟩ := h
        exact hlhs
    · -- parseListExpr
      intro ts n r h
      simp only [parseListExpr] at h
      split at h
      · rcases hc : parseCommon fuel 0 _ with e | ⟨e1, ts1⟩ <;> rw [hc] at h <;> simp at h
        split at h
        · rename_i tsz r2z heq2z
          split at h
          · simp at h
            obtain ⟨rfl, rfl⟩ := h
            exact ⟨by simp [inListInv, inListInvList, ihPC _ _ _ _ hc], rfl⟩
          · rcases hc2 : parseCommon fuel 0 (skipBWS r2z) with e | ⟨e2, r3⟩ <;>
              rw [hc2] at h <;> simp at h
            exact ihPLI [e1, e2] _ n r
              (by simp [inListInvList, ihPC _ _ _ _ hc, ihPC _ _ _ _ hc2]) h
        · simp at h
        · simp at h
      · simp at h
      · simp at h

/-! # Claim theorems -/

/-- C1: The specified printer round-trip `parse(print(parse(S))) == parse(S)`
fails on the valid filter string `"(1,)"` : the parser (by an explicit
grammar decision) reads `"(1,)"` as the single-element list literal
`List([Integer('1')])`, but `AstToODataVisitor.visit_List` prints it without
the trailing comma as `"(1)"`, which re-parses as the parenthesized scalar
`Integer('1')`.  For `"a in (1,)"` the printed text `"a in (1)"` does not
parse at all (the grammar demands a `list_expr` after `in`).  The theorem
evaluates the embedded parser and printer along both chains. -/
theorem roundtrip_single_element_list_bug :
    parse "(1,)" = .ok (.list [.integer "1"])
    ∧ astToOData (.list [.integer "1"]) = .ok "(1)"
    ∧ parse "(1)" = .ok (.integer "1")
    ∧ parse "a in (1,)" =
        .ok (.compare .inOp (.identifier "a" []) (.list [.integer "1"]))
    ∧ astToOData (.compare .inOp (.identifier "a" []) (.list [.integer "1"])) =
        .ok "a in (1)"
    ∧ parse "a in (1)" = .error (.parsingException (some .rparen) false) :=
  ⟨rfl, rfl, rfl, rfl, rfl, rfl⟩

/-- C2: On input the lexer cannot match, `ODataLexer.error` executes
`raise exceptions.TokenizingException(text)` — but `text` is an unbound
name there, so the statement itself raises `NameError: name 'text' is not
defined` instead of the documented `TokenizingException` carrying the
offending fragment. -/
theorem tokenize_error_raises_name_error :
    tokenize "$" = .error (.nameError "text")
    ∧ tokenize "id eq $foo" = .error (.nameError "text") :=
  ⟨rfl, rfl⟩

/-- C3 counterexample: `Duration("P12DT23H59M59.9S").unpack()` does not
return the five-tuple `(None, "12", "23", "59", "59.9")` claimed by the
spec — `unpack` returns seven components. -/
theorem duration_unpack_not_five_tuple :
    durationUnpackList "P12DT23H59M59.9S" ≠
      some [Option.none, some "12", some "23", some "59", some "59.9"] := by
  decide

/-- C3 (amended): `Duration.unpack` returns the 7-tuple
`(sign, years, months, days, hours, minutes, seconds)`:
`"P12DT23H59M59.9S"` unpacks to
`(None, None, None, "12", "23", "59", "59.9")`, and `"-P1D"` keeps the
sign `"-"`. -/
theorem duration_unpack_seven_tuple :
    durationUnpackList "P12DT23H59M59.9S" =
      some [Option.none, Option.none, Option.none,
            some "12", some "23", some "59", some "59.9"]
    ∧ durationUnpackList "-P1D" =
        some [some "-", Option.none, Option.none, some "1",
              Option.none, Option.none, Option.none] :=
  ⟨rfl, rfl⟩

/-- C5: `parse("a/b/c")` is left-nested, and a collection lambda after a
*single*-segment prefix absorbs the prefix into its owner — but with two or
more prefix segments before the lambda (`"a/b/c/any(…)"`) the reduction in
`property_path_expr` evaluates `owner.name` on an owner that is already an
`Attribute`, raising `AttributeError` instead of building the absorbed
owner path. -/
theorem attribute_path_reassociation :
    parse "a/b/c" = .ok (.attribute (.attribute (.identifier "a" []) "b") "c")
    ∧ parse "a/b/c/d" =
        .ok (.attribute (.attribute (.attribute (.identifier "a" []) "b") "c") "d")
    ∧ parse "a/b/any(x: x eq 4)" =
        .ok (.collectionLambda (.attribute (.identifier "a" []) "b") .any
          (some ( Node.lambda' "x" []
            (.compare .eq (.identifier "x" []) (.integer "4")))))
    ∧ parse "a/b/c/any(x: x eq 4)" = .error (.attributeError "name") :=
  ⟨rfl, rfl, rfl, rfl⟩

/-- C6: Function-call validation at parse time: an unregistered name raises
the unknown-function failure; a registered name with an argument count
outside its exact arity or `(min, max)` range raises the arg-count failure
carrying the function name and the expected/actual counts.  In particular
`"now('x')"` and `"doesnotexist()"` fail during `parse` itself (no visitor
is involved in `parse`). -/
theorem function_call_validation (name : String) (ns : List String) (args : List Node) :
    (ODATA_FUNCTIONS.lookup name = Option.none →
      functionCall name ns args = .error (.unknownFunctionException name))
    ∧ (∀ n, ODATA_FUNCTIONS.lookup name = some (.exact n) → args.length ≠ n →
        functionCall name ns args =
          .error (.argumentCountException name n n args.length))
    ∧ (∀ lo hi, ODATA_FUNCTIONS.lookup name = some (.range lo hi) →
        (args.length < lo ∨ hi < args.length) →
        functionCall name ns args =
          .error (.argumentCountException name lo hi args.length))
    ∧ parse "now('x')" = .error (.argumentCountException "now" 0 0 1)
    ∧ parse "doesnotexist()" = .error (.unknownFunctionException "doesnotexist") := by
  refine ⟨?_, ?_, ?_, rfl, rfl⟩
  · intro h
    simp only [functionCall, h]
    rfl
  · intro n h hne
    simp only [functionCall, h, hne, if_true, ne_eq, not_false_eq_true, if_pos]
    rfl
  · intro lo hi h hrange
    have hb : (args.length < lo || hi < args.length) = true := by
      rcases hrange with h1 | h1 <;> simp [h1]
    simp only [functionCall, h, hb, if_true]
    rfl

/-- C6 witness: the general clauses applied to `doesnotexist`, `now` with
one argument, and `substring` with no arguments. -/
theorem function_call_validation_witness :
    functionCall "doesnotexist" [] [] =
      .error (.unknownFunctionException "doesnotexist")
    ∧ functionCall "now" [] [.string "x"] =
        .error (.argumentCountException "now" 0 0 1)
    ∧ functionCall "substring" [] [] =
        .error (.argumentCountException "substring" 2 3 0) :=
  ⟨(function_call_validation "doesnotexist" [] []).1 rfl,
   (function_call_validation "now" [] [.string "x"]).2.1 0 rfl (by decide),
   (function_call_validation "substring" [] []).2.2.1 2 3 rfl (by decide)⟩

/-- C4: in all three SQL dialect visitors (base SQL-99, SQLite, Athena),
`Compare(Eq, x, Null)` renders as `… IS NULL` and `Compare(NotEq, x, Null)`
as `… IS NOT NULL`, for every operand `x` and table alias — the rendered
operand (parenthesized when `x` is a boolean sub-expression) followed by the
`IS`-form, never `= NULL` or `!= NULL`.  Stated as an equation on the whole
visitor result, covering both the success and the error-propagation case. -/
theorem compare_null_renders_is_null (ta : Option String) (x : Node) :
    (visitB ta (.compare .eq x .null) =
      (visitB ta x).map (fun v =>
        .str ((if isBoolOpOrCompare x then "(" ++ v.fmt ++ ")" else v.fmt)
          ++ " IS NULL")))
    ∧ (visitB ta (.compare .notEq x .null) =
      (visitB ta x).map (fun v =>
        .str ((if isBoolOpOrCompare x then "(" ++ v.fmt ++ ")" else v.fmt)
          ++ " IS NOT NULL")))
    ∧ (visitS ta (.compare .eq x .null) =
      (visitS ta x).map (fun v =>
        .str ((if isBoolOpOrCompare x then "(" ++ v.fmt ++ ")" else v.fmt)
          ++ " IS NULL")))
    ∧ (visitS ta (.compare .notEq x .null) =
      (visitS ta x).map (fun v =>
        .str ((if isBoolOpOrCompare x then "(" ++ v.fmt ++ ")" else v.fmt)
          ++ " IS NOT NULL")))
    ∧ (visitA ta (.compare .eq x .null) =
      (visitA ta x).map (fun v =>
        .str ((if isBoolOpOrCompare x then "(" ++ v.fmt ++ ")" else v.fmt)
          ++ " IS NULL")))
    ∧ (visitA ta (.compare .notEq x .null) =
      (visitA ta x).map (fun v =>
        .str ((if isBoolOpOrCompare x then "(" ++ v.fmt ++ ")" else v.fmt)
          ++ " IS NOT NULL"))) := by
  refine ⟨?_, ?_, ?_, ?_, ?_, ?_⟩
  · cases h : visitB ta x with
    | error e => simp [visitB, h, Except.map, Except.bind]
    | ok v =>
      simp [visitB, h, Except.map, Except.bind, compareOperator, isNullNode,
        isBoolOpOrCompare, String.append_assoc, PyVal.fmt]
  · cases h : visitB ta x with
    | error e => simp [visitB, h, Except.map, Except.bind]
    | ok v =>
      simp [visitB, h, Except.map, Except.bind, compareOperator, isNullNode,
        isBoolOpOrCompare, String.append_assoc, PyVal.fmt]
  · cases h : visitS ta x with
    | error e => simp [visitS, h, Except.map, Except.bind]
    | ok v =>
      simp [visitS, h, Except.map, Except.bind, compareOperator, isNullNode,
        isBoolOpOrCompare, String.append_assoc, PyVal.fmt]
  · cases h : visitS ta x with
    | error e => simp [visitS, h, Except.map, Except.bind]
    | ok v =>
      simp [visitS, h, Except.map, Except.bind, compareOperator, isNullNode,
        isBoolOpOrCompare, String.append_assoc, PyVal.fmt]
  · cases h : visitA ta x with
    | error e => simp [visitA, h, Except.map, Except.bind]
    | ok v =>
      simp [visitA, h, Except.map, Except.bind, compareOperator, isNullNode,
        isBoolOpOrCompare, String.append_assoc, PyVal.fmt]
  · cases h : visitA ta x with
    | error e => simp [visitA, h, Except.map, Except.bind]
    | ok v =>
      simp [visitA, h, Except.map, Except.bind, compareOperator, isNullNode,
        isBoolOpOrCompare, String.append_assoc, PyVal.fmt]

theorem isNullNode_eq_false_of_boolTyped {y : Node}
    (h : isBoolOpOrCompare y = true) : isNullNode y = false := by
  cases y <;> simp_all [isBoolOpOrCompare, isNullNode]

/-- C7 counterexample: the claim "every boolean-typed operand (BoolOp or
Compare) of a Compare or BoolOp node is always parenthesized" fails for a
`Compare` operand of a `BoolOp`: `visit_BoolOp` only parenthesizes `BoolOp`
children, so `BoolOp(And, Compare(Eq, a, 1), true)` renders with the bare
comparison, not the parenthesized form the claim mandates. -/
theorem boolop_compare_operand_not_parenthesized :
    visitB Option.none
        (.boolOp .and (.compare .eq (.identifier "a" []) (.integer "1"))
          (.boolean "true"))
      = .ok (.str "\"a\" = 1 AND TRUE")
    ∧ ("\"a\" = 1 AND TRUE" : String) ≠ "(\"a\" = 1) AND TRUE" :=
  ⟨by simp [visitB, compareOperator, isNullNode, cmpSqlName, boolOpSqlName,
      boolChildSql, isBoolOpOrCompare, PyVal.fmt] <;> decide,
   by decide⟩

/-- C7 (amended): in the SQL generators (base, SQLite and Athena), a
`BoolOp` wraps a child in parentheses exactly when the child is itself a
`BoolOp` whose boolean operator differs from the parent's — so a
same-operator chain stays flat and a `Compare` operand of a `BoolOp` is
rendered without parentheses — and an operand of a `Compare` node is
parenthesized exactly when it is boolean-typed (`BoolOp` or `Compare`).
Stated as total rendering equations over arbitrary operands in both
positions, with the wrapping function characterized on `BoolOp` and
`Compare` children. -/
theorem boolop_parenthesization (ta : Option String) :
    (∀ op cop a b s,
      boolChildSql op (.boolOp cop a b) s = if cop ≠ op then "(" ++ s ++ ")" else s)
    ∧ (∀ op c x y s, boolChildSql op (.compare c x y) s = s)
    ∧ (∀ op l r vl vr,
      visitB ta l = .ok vl → visitB ta r = .ok vr →
      visitB ta (.boolOp op l r) = .ok (.str
        (boolChildSql op l vl.fmt ++ " " ++ boolOpSqlName op ++ " "
          ++ boolChildSql op r vr.fmt)))
    ∧ (∀ cmp x y vx vy,
      visitB ta x = .ok vx → visitB ta y = .ok vy →
      visitB ta (.compare cmp x y) = .ok (.str
        ((if isBoolOpOrCompare x then "(" ++ vx.fmt ++ ")" else vx.fmt)
          ++ " " ++ compareOperator cmp y ++ " "
          ++ (if isBoolOpOrCompare y then "(" ++ vy.fmt ++ ")" else vy.fmt))))
    ∧ (∀ op l r vl vr,
      visitS ta l = .ok vl → visitS ta r = .ok vr →
      visitS ta (.boolOp op l r) = .ok (.str
        (boolChildSql op l vl.fmt ++ " " ++ boolOpSqlName op ++ " "
          ++ boolChildSql op r vr.fmt)))
    ∧ (∀ cmp x y vx vy,
      visitS ta x = .ok vx → visitS ta y = .ok vy →
      visitS ta (.compare cmp x y) = .ok (.str
        ((if isBoolOpOrCompare x then "(" ++ vx.fmt ++ ")" else vx.fmt)
          ++ " " ++ compareOperator cmp y ++ " "
          ++ (if isBoolOpOrCompare y then "(" ++ vy.fmt ++ ")" else vy.fmt))))
    ∧ (∀ op l r vl vr,
      visitA ta l = .ok vl → visitA ta r = .ok vr →
      visitA ta (.boolOp op l r) = .ok (.str
        (boolChildSql op l vl.fmt ++ " " ++ boolOpSqlName op ++ " "
          ++ boolChildSql op r vr.fmt)))
    ∧ (∀ cmp x y vx vy,
      visitA ta x = .ok vx → visitA ta y = .ok vy →
      visitA ta (.compare cmp x y) = .ok (.str
        ((if isBoolOpOrCompare x then "(" ++ vx.fmt ++ ")" else vx.fmt)
          ++ " " ++ compareOperator cmp y ++ " "
          ++ (if isBoolOpOrCompare y then "(" ++ vy.fmt ++ ")" else vy.fmt)))) := by
  refine ⟨?_, ?_, ?_, ?_, ?_, ?_, ?_, ?_⟩
  · intro op cop a b s
    rfl
  · intro op c x y s
    rfl
  · intro op l r vl vr h1 h2
    simp [visitB, h1, h2]
  · intro cmp x y vx vy h1 h2
    simp [visitB, h1, h2]
  · intro op l r vl vr h1 h2
    simp [visitS, h1, h2]
  · intro cmp x y vx vy h1 h2
    simp [visitS, h1, h2]
  · intro op l r vl vr h1 h2
    simp [visitA, h1, h2]
  · intro cmp x y vx vy h1 h2
    simp [visitA, h1, h2]

/-- C7 witness: the amended equations applied at concrete trees — a
differing-operator `BoolOp` child is wrapped in the left and in the right
position while a same-operator child stays flat, a `Compare` child of a
`BoolOp` stays bare, both boolean-typed operands of a `Compare` are
parenthesized, and the SQLite and Athena generators agree. -/
theorem boolop_parenthesization_witness :
    visitB Option.none
        (.boolOp .or
          (.boolOp .and (.identifier "a" []) (.identifier "b" []))
          (.boolOp .or (.identifier "c" []) (.identifier "d" [])))
      = .ok (.str "(\"a\" AND \"b\") OR \"c\" OR \"d\"")
    ∧ visitB Option.none
        (.boolOp .and
          (.compare .eq (.identifier "a" []) (.integer "1"))
          (.boolOp .or (.identifier "c" []) (.identifier "d" [])))
      = .ok (.str "\"a\" = 1 AND (\"c\" OR \"d\")")
    ∧ visitB Option.none
        (.compare .eq
          (.boolOp .and (.identifier "a" []) (.identifier "b" []))
          (.compare .gt (.identifier "c" []) (.integer "2")))
      = .ok (.str "(\"a\" AND \"b\") = (\"c\" > 2)")
    ∧ visitS Option.none
        (.boolOp .and
          (.compare .eq (.identifier "a" []) (.integer "1"))
          (.boolOp .or (.identifier "c" []) (.identifier "d" [])))
      = .ok (.str "\"a\" = 1 AND (\"c\" OR \"d\")")
    ∧ visitA Option.none
        (.boolOp .and
          (.compare .eq (.identifier "a" []) (.integer "1"))
          (.boolOp .or (.identifier "c" []) (.identifier "d" [])))
      = .ok (.str "\"a\" = 1 AND (\"c\" OR \"d\")") := by
  have eab : visitB Option.none (.boolOp .and (.identifier "a" []) (.identifier "b" []))
      = .ok (.str "\"a\" AND \"b\"") := by
    simp [visitB, boolChildSql, boolOpSqlName, PyVal.fmt] <;> decide
  have eor2 : visitB Option.none (.boolOp .or (.identifier "c" []) (.identifier "d" []))
      = .ok (.str "\"c\" OR \"d\"") := by
    simp [visitB, boolChildSql, boolOpSqlName, PyVal.fmt] <;> decide
  have ec1 : visitB Option.none (.compare .eq (.identifier "a" []) (.integer "1"))
      = .ok (.str "\"a\" = 1") := by
    simp [visitB, compareOperator, isNullNode, cmpSqlName, isBoolOpOrCompare,
      PyVal.fmt] <;> decide
  have ec3 : visitB Option.none (.compare .gt (.identifier "c" []) (.integer "2"))
      = .ok (.str "\"c\" > 2") := by
    simp [visitB, compareOperator, isNullNode, cmpSqlName, isBoolOpOrCompare,
      PyVal.fmt] <;> decide
  have sc1 : visitS Option.none (.compare .eq (.identifier "a" []) (.integer "1"))
      = .ok (.str "\"a\" = 1") := by
    simp [visitS, cleanSqliteIdentifier, pyLower, compareOperator, isNullNode,
      cmpSqlName, isBoolOpOrCompare, PyVal.fmt] <;> decide
  have sor2 : visitS Option.none (.boolOp .or (.identifier "c" []) (.identifier "d" []))
      = .ok (.str "\"c\" OR \"d\"") := by
    simp [visitS, cleanSqliteIdentifier, pyLower, boolChildSql, boolOpSqlName,
      PyVal.fmt] <;> decide
  have ac1 : visitA Option.none (.compare .eq (.identifier "a" []) (.integer "1"))
      = .ok (.str "\"a\" = 1") := by
    simp [visitA, cleanAthenaIdentifier, pyLower, compareOperator, isNullNode,
      cmpSqlName, isBoolOpOrCompare, PyVal.fmt] <;> decide
  have aor2 : visitA Option.none (.boolOp .or (.identifier "c" []) (.identifier "d" []))
      = .ok (.str "\"c\" OR \"d\"") := by
    simp [visitA, cleanAthenaIdentifier, pyLower, boolChildSql, boolOpSqlName,
      PyVal.fmt] <;> decide
  refine ⟨?_, ?_, ?_, ?_, ?_⟩
  · have h := (boolop_parenthesization Option.none).2.2.1 .or
      (.boolOp .and (.identifier "a" []) (.identifier "b" []))
      (.boolOp .or (.identifier "c" []) (.identifier "d" []))
      (.str "\"a\" AND \"b\"") (.str "\"c\" OR \"d\"") eab eor2
    rw [h]
    rfl
  · have h := (boolop_parenthesization Option.none).2.2.1 .and
      (.compare .eq (.identifier "a" []) (.integer "1"))
      (.boolOp .or (.identifier "c" []) (.identifier "d" []))
      (.str "\"a\" = 1") (.str "\"c\" OR \"d\"") ec1 eor2
    rw [h]
    rfl
  · have h := (boolop_parenthesization Option.none).2.2.2.1 .eq
      (.boolOp .and (.identifier "a" []) (.identifier "b" []))
      (.compare .gt (.identifier "c" []) (.integer "2"))
      (.str "\"a\" AND \"b\"") (.str "\"c\" > 2") eab ec3
    rw [h]
    rfl
  · have h := (boolop_parenthesization Option.none).2.2.2.2.1 .and
      (.compare .eq (.identifier "a" []) (.integer "1"))
      (.boolOp .or (.identifier "c" []) (.identifier "d" []))
      (.str "\"a\" = 1") (.str "\"c\" OR \"d\"") sc1 sor2
    rw [h]
    rfl
  · have h := (boolop_parenthesization Option.none).2.2.2.2.2.2.1 .and
      (.compare .eq (.identifier "a" []) (.integer "1"))
      (.boolOp .or (.identifier "c" []) (.identifier "d" []))
      (.str "\"a\" = 1") (.str "\"c\" OR \"d\"") ac1 aor2
    rw [h]
    rfl

/-- C8: parenthesized list literals need a trailing comma in the
single-element case: `"(1,)"` is `List([Integer('1')])`, `"(1,2)"` is a
two-element list, and `"(1)"` is the parenthesized scalar `Integer('1')`. -/
theorem list_literal_trailing_comma :
    parse "(1,)" = .ok (.list [.integer "1"])
    ∧ parse "(1,2)" = .ok (.list [.integer "1", .integer "2"])
    ∧ parse "(1)" = .ok (.integer "1") :=
  ⟨rfl, rfl, rfl⟩

/-- C10: the lexer's DURATION rule admits only a sign, a days component and a
time component, so every duration value it stores (the uppercased text
between the quotes, the string later handed to `Duration.unpack`) unpacks
with `None` in both the years and the months groups of `DURATION_PATTERN`. -/
theorem lexer_duration_no_years_months (cs : List Char) (v : String) (rest : List Char)
    (h : matchDuration cs = some (v, rest)) :
    ∃ g, durationUnpack v = some g
      ∧ g.years = Option.none ∧ g.months = Option.none := by
  obtain ⟨sign, days, time, hs, hd, ht, hb⟩ := matchDuration_shape h
  have hv : v = String.mk (sign ++ 'P' :: (days ++ time)) := by
    cases v
    exact congrArg String.mk (by simpa using hb)
  rw [hv]
  exact durationUnpack_canon sign hs days time hd ht

/-- C10 witness: the DURATION rule matches `duration'P12DT23H59M59.9S'` with
stored value `P12DT23H59M59.9S`, whose unpack has no years and no months. -/
theorem lexer_duration_no_years_months_witness :
    ∃ g, durationUnpack "P12DT23H59M59.9S" = some g
      ∧ g.years = Option.none ∧ g.months = Option.none :=
  lexer_duration_no_years_months
    ("duration".data ++ '\'' :: ("P12DT23H59M59.9S".data ++ ['\'']))
    "P12DT23H59M59.9S" [] (by decide)

/-- C9: in every AST the parser produces, the right operand of a `Compare`
node with comparator `In` is a `List` literal (proved as an invariant of the
whole parser by induction on the fuel), and an `in` whose right-hand side is
not a parenthesized list is a parse failure: `"a in b"` raises
`ParsingException` at the token `b`. -/
theorem in_rhs_always_list :
    (∀ s n, parse s = Except.ok n → inListInv n = true)
    ∧ parse "a in b" =
        Except.error (.parsingException (some (.odataIdentifier "b")) false) := by
  constructor
  · intro s n h
    unfold parse at h
    rcases ht : tokenize s with e | ts <;> rw [ht] at h <;> simp at h
    rcases hp : parseCommon ((ts.length + 2) * 6) 0 ts with e | ⟨node, rest⟩ <;>
      rw [hp] at h <;> simp at h
    rcases rest with _ | ⟨t, rest⟩
    · simp at h
      subst h
      exact (parser_inv _).1 _ _ _ _ hp
    · simp at h
  · rfl

/-- C9 witness: `"a in (1,)"` parses to an `In` comparison whose right
operand is the `List` literal, on which the invariant evaluates to `true`. -/
theorem in_rhs_always_list_witness :
    parse "a in (1,)" =
      Except.ok (.compare .inOp (.identifier "a" []) (.list [.integer "1"]))
    ∧ inListInv (.compare .inOp (.identifier "a" []) (.list [.integer "1"])) = true :=
  ⟨rfl, in_rhs_always_list.1 "a in (1,)" _ rfl⟩

end ODataQuery
